import Mathlib

/-!
Verification development for the RAIL-AI rake-formation planner
(`backend/app/services/planner.py` and `backend/app/routers/planning.py`).

The Python code is shallowly embedded: dictionaries become structures,
floats become rationals (`ℚ`), Python `dict` inventories become
association lists read/written at the first matching key, and Python
truthiness of optional numeric / string fields is modelled explicitly
(`truthyQ` / `truthyS`).  The planner consumes its distance function
only as a black box (it sorts by it and multiplies by it), so the
planner definitions are parametrised by a distance oracle `Dist`;
the repository instantiates it with `GreedyPlanner._calculate_distance`,
which is modelled separately over the reals as `calculate_distance`
(its haversine branch is irrational-valued).  The CP-SAT solver is
external; its output is modelled as an arbitrary assignment that
satisfies the constraints posted to the model (`cpFeasible`), and the
solver call's three observable outcomes (solution / no solution /
exception) as `SolverOutcome`.
-/

set_option maxRecDepth 4000

namespace RailAI

/-- Python truthiness of an optional numeric field: `None` and `0` are falsy. -/
def truthyQ : Option ℚ → Bool
  | none => false
  | some x => x != 0

/-- Python truthiness of an optional string field: `None` and `""` are falsy. -/
def truthyS : Option String → Bool
  | none => false
  | some s => s != ""

/-- Python `int()` on a float/rational: truncation toward zero. -/
def pyInt (q : ℚ) : ℤ := if q < 0 then ⌈q⌉ else ⌊q⌋

/-- A point with optional geo-coordinates (the shape `_calculate_distance` reads). -/
structure GeoPoint where
  latitude : Option ℚ
  longitude : Option ℚ
deriving DecidableEq, Repr

/-- One product bucket of a stockyard inventory dict: product code ↦ tonnes. -/
abbrev ProductInv := List (String × ℚ)

/-- The planner's inventory ledger: stockyard code ↦ product code ↦ tonnes.
Stockyard codes are unique (DB unique constraint), so first-match lookup
agrees with the Python dict built by comprehension. -/
abbrev Inventory := List (String × ProductInv)

/-- Stockyard snapshot dict as handed to the planner. -/
structure Stockyard where
  id : String
  code : String
  name : String
  latitude : Option ℚ
  longitude : Option ℚ
  current_inventory : ProductInv
deriving DecidableEq, Repr

/-- The coordinate pair of a stockyard, as passed to the distance function. -/
def Stockyard.geo (s : Stockyard) : GeoPoint := ⟨s.latitude, s.longitude⟩

/-- Order snapshot dict as handed to the planner. -/
structure Order where
  id : String
  order_number : String
  product_code : String
  quantity_tonnes : ℚ
  source_stockyard_id : Option String := none
  destination : String
  destination_latitude : Option ℚ := none
  destination_longitude : Option ℚ := none
  priority : ℚ := 3
  due_date : ℚ := 0
deriving DecidableEq, Repr

/-- Rake snapshot dict as handed to the planner. -/
structure Rake where
  id : String
  rake_number : String
  wagon_type_code : String
  num_wagons : ℚ
  total_capacity_tonnes : ℚ
  status : String
deriving DecidableEq, Repr

/-- Planner configuration after `__init__` applied the `config.get` defaults. -/
structure Config where
  allow_multi_destination : Bool := false
  min_rake_size : ℚ := 1000
  freight_weight : ℚ := 1
  demurrage_weight : ℚ := 1/2
  idle_weight : ℚ := 3/10
  freight_rate : ℚ := 5/2
  demurrage_rate : ℚ := 500
  idle_cost : ℚ := 100
deriving DecidableEq, Repr

/-- `inventory[code][product]` read (first matching key, as for a Python dict). -/
def invGet (inv : Inventory) (code product : String) : Option ℚ :=
  match inv.lookup code with
  | none => none
  | some bucket => bucket.lookup product

/-- Remaining stock with default 0 (`inventory[code].get(product, 0)`). -/
def invGetD (inv : Inventory) (code product : String) : ℚ :=
  (invGet inv code product).getD 0

/-- Replace the value at the first occurrence of `product` in a bucket. -/
def bucketSet (product : String) (v : ℚ) : ProductInv → ProductInv
  | [] => []
  | (p, q) :: rest =>
      if p = product then (p, v) :: rest else (p, q) :: bucketSet product v rest

/-- `inventory[code][product] = v` (first matching keys). -/
def invSet (code product : String) (v : ℚ) : Inventory → Inventory
  | [] => []
  | (c, bucket) :: rest =>
      if c = code then (c, bucketSet product v bucket) :: rest
      else (c, bucket) :: invSet code product v rest

/-- A distance oracle, consumed as a black box by the planner
(the repository plugs in `GreedyPlanner._calculate_distance`). -/
abbrev Dist := GeoPoint → GeoPoint → ℚ

/-- `math.radians`: degrees to radians. -/
noncomputable def radians (x : ℚ) : ℝ := (x : ℝ) * Real.pi / 180

/-- The haversine great-circle distance with Earth radius 6371 km, exactly as
computed by the first branch of `GreedyPlanner._calculate_distance`. -/
noncomputable def haversine (lat1 lon1 lat2 lon2 : ℚ) : ℝ :=
  let l1 := radians lat1
  let m1 := radians lon1
  let l2 := radians lat2
  let m2 := radians lon2
  let dlat := l2 - l1
  let dlon := m2 - m1
  let a := Real.sin (dlat / 2) ^ 2 + Real.cos l1 * Real.cos l2 * Real.sin (dlon / 2) ^ 2
  let c := 2 * Real.arcsin (Real.sqrt a)
  c * 6371

/-- `GreedyPlanner._calculate_distance`: haversine when all four coordinate
fields are truthy (present and nonzero), else the 500 km fallback. -/
noncomputable def calculate_distance (origin destination : GeoPoint) : ℝ :=
  if truthyQ origin.latitude && truthyQ origin.longitude &&
     truthyQ destination.latitude && truthyQ destination.longitude then
    haversine (origin.latitude.getD 0) (origin.longitude.getD 0)
      (destination.latitude.getD 0) (destination.longitude.getD 0)
  else
    500

/-- Stable insertion of one element: walk past `y` only while `y` is strictly
below `x` in the order `le`, so equal elements keep their original order. -/
def pySortInsert {A : Type} (le : A → A → Bool) (x : A) : List A → List A
  | [] => [x]
  | y :: ys => if le y x && !(le x y) then y :: pySortInsert le x ys else x :: y :: ys

/-- Python's `list.sort` / `sorted` with a total comparison: a stable sort.
A stable sort is uniquely determined by the comparison and the input order,
so this structurally recursive model coincides with CPython's Timsort. -/
def pySort {A : Type} (le : A → A → Bool) (l : List A) : List A :=
  l.foldr (pySortInsert le) []

/-- The `candidates` list built by `GreedyPlanner._select_source_stockyard`:
stockyards whose remaining stock of the order's product covers the quantity. -/
def selCandidates (order : Order) (stockyards : List Stockyard)
    (inventory : Inventory) : List Stockyard :=
  stockyards.filter (fun sy =>
    match invGet inventory sy.code order.product_code with
    | some available => decide (order.quantity_tonnes ≤ available)
    | none => false)

/-- `GreedyPlanner._select_source_stockyard`: pinned stockyard verbatim, else
the nearest (by the distance oracle) or most-stocked candidate with
sufficient inventory.  Python `list.sort(key=...)` is a stable ascending
sort by key; `reverse=True` is the stable descending variant, so taking the
head of the sorted list realises the arg-min / arg-max. -/
def select_source_stockyard (dist : Dist) (order : Order)
    (stockyards : List Stockyard) (inventory : Inventory) : Option Stockyard :=
  if truthyS order.source_stockyard_id then
    stockyards.find? (fun s => some s.id == order.source_stockyard_id)
  else
    let product_code := order.product_code
    let candidates := selCandidates order stockyards inventory
    if candidates.isEmpty then
      none
    else if truthyQ order.destination_latitude && truthyQ order.destination_longitude then
      (pySort (fun a b =>
        decide (dist a.geo ⟨order.destination_latitude, order.destination_longitude⟩ ≤
                dist b.geo ⟨order.destination_latitude, order.destination_longitude⟩))
        candidates).head?
    else
      (pySort (fun a b =>
        decide (invGetD inventory b.code product_code ≤
                invGetD inventory a.code product_code))
        candidates).head?

/-- One assigned-order record inside a PlanRake payload. -/
structure RakeOrder where
  order_id : String
  order_number : String
  product_code : String
  quantity : ℚ
  destination : String
  freight_cost : ℚ
deriving DecidableEq, Repr

/-- One emitted PlanRake payload dict. -/
structure RakePlan where
  rake_number : String
  origin_stockyard_code : Option String
  origin_stockyard_name : Option String
  destinations : List String
  orders : List RakeOrder
  order_ids : List String
  total_weight : ℚ
  capacity : ℚ
  utilization_pct : ℚ
  freight_cost : ℚ
  demurrage_cost : ℚ
  idle_cost : ℚ
  wagon_type : String
  num_wagons : ℚ
deriving DecidableEq, Repr

/-- The plan dict returned by `GreedyPlanner.plan` / `ORToolsPlanner._extract_solution`. -/
structure PlanResult where
  rakes : List RakePlan
  total_cost : ℚ
  freight_cost : ℚ
  demurrage_cost : ℚ
  idle_cost : ℚ
  utilization_pct : ℚ
  orders_fulfilled : ℕ
  total_orders : ℕ
  algorithm : String
deriving DecidableEq, Repr

/-- Loop state of the order sweep inside `GreedyPlanner._pack_rake`. -/
structure PackState where
  current_weight : ℚ
  rake_orders : List RakeOrder
  destinations : List String
  origin_stockyard : Option Stockyard
  freight_cost : ℚ
  inventory : Inventory
deriving DecidableEq, Repr

/-- `destinations.add(destination)` on the destination set (insertion order kept). -/
def destAdd (ds : List String) (d : String) : List String :=
  if d ∈ ds then ds else ds ++ [d]

/-- The inventory check and, on success, the actual packing of one order
(the body guarded by `available >= order_weight` in `_pack_rake`). -/
def pack_try_add (cfg : Config) (dist : Dist) (st : PackState) (order : Order)
    (source_sy : Stockyard) : PackState :=
  let order_weight := order.quantity_tonnes
  match invGet st.inventory source_sy.code order.product_code with
  | none => st
  | some available =>
    if available < order_weight then st
    else
      let d := dist source_sy.geo ⟨order.destination_latitude, order.destination_longitude⟩
      let order_freight := d * order_weight * cfg.freight_rate
      { current_weight := st.current_weight + order_weight
        rake_orders := st.rake_orders ++
          [⟨order.id, order.order_number, order.product_code, order_weight,
            order.destination, order_freight⟩]
        destinations := destAdd st.destinations order.destination
        origin_stockyard := st.origin_stockyard
        freight_cost := st.freight_cost + order_freight
        inventory := invSet source_sy.code order.product_code (available - order_weight) st.inventory }

/-- One iteration of the order loop in `GreedyPlanner._pack_rake`.  Mirrors the
Python control flow: every `continue` returns the state unchanged, except that
adopting the pack origin happens before the inventory check and persists even
when that check fails. -/
def pack_step (cfg : Config) (dist : Dist) (rake_capacity : ℚ) (assigned : Finset String)
    (stockyards : List Stockyard) (st : PackState) (order : Order) : PackState :=
  if order.id ∈ assigned then st
  else
    let order_weight := order.quantity_tonnes
    if rake_capacity < st.current_weight + order_weight then st
    else
      let destination := order.destination
      if ¬cfg.allow_multi_destination ∧ st.destinations ≠ [] ∧ destination ∉ st.destinations then st
      else
        match select_source_stockyard dist order stockyards st.inventory with
        | none => st
        | some source_sy =>
          match st.origin_stockyard with
          | some og =>
            if source_sy.code ≠ og.code then st
            else pack_try_add cfg dist st order source_sy
          | none =>
            pack_try_add cfg dist { st with origin_stockyard := some source_sy } order source_sy

/-- `GreedyPlanner._pack_rake`: sweep the sorted orders once; return the pack
(or `none` when empty) together with the mutated inventory ledger. -/
def pack_rake (cfg : Config) (dist : Dist) (rake : Rake) (orders : List Order)
    (assigned : Finset String) (stockyards : List Stockyard) (inventory : Inventory) :
    Option RakePlan × Inventory :=
  let init : PackState := ⟨0, [], [], none, 0, inventory⟩
  let fin := orders.foldl
    (pack_step cfg dist rake.total_capacity_tonnes assigned stockyards) init
  if fin.rake_orders.isEmpty then (none, fin.inventory)
  else
    let utilization := fin.current_weight / rake.total_capacity_tonnes * 100
    let demurrage_cost := if utilization < 75 then cfg.demurrage_rate * 24 else 0
    let idle_cost := cfg.idle_cost * (fin.rake_orders.length * 2)
    (some { rake_number := rake.rake_number
            origin_stockyard_code := fin.origin_stockyard.map (·.code)
            origin_stockyard_name := fin.origin_stockyard.map (·.name)
            destinations := fin.destinations
            orders := fin.rake_orders
            order_ids := fin.rake_orders.map (·.order_id)
            total_weight := fin.current_weight
            capacity := rake.total_capacity_tonnes
            utilization_pct := utilization
            freight_cost := fin.freight_cost
            demurrage_cost := demurrage_cost
            idle_cost := idle_cost
            wagon_type := rake.wagon_type_code
            num_wagons := rake.num_wagons },
     fin.inventory)

/-- Accumulator of the rake loop in `GreedyPlanner.plan`. -/
structure GreedyState where
  plan_rakes : List RakePlan
  assigned : Finset String
  total_freight : ℚ
  total_demurrage : ℚ
  total_idle : ℚ
  inventory : Inventory
deriving DecidableEq

/-- One iteration of the rake loop in `GreedyPlanner.plan`.  The Python `break`
once all orders are assigned is modelled as a skip: the guard stays true for
every later rake, so the final state is identical. -/
def greedy_rake_step (cfg : Config) (dist : Dist) (sorted_orders : List Order)
    (stockyards : List Stockyard) (st : GreedyState) (rake : Rake) : GreedyState :=
  if sorted_orders.length ≤ st.assigned.card then st
  else
    let packed := pack_rake cfg dist rake sorted_orders st.assigned stockyards st.inventory
    let st' := { st with inventory := packed.2 }
    match packed.1 with
    | none => st'
    | some rake_plan =>
      if cfg.min_rake_size ≤ rake_plan.total_weight then
        { st' with
          plan_rakes := st'.plan_rakes ++ [rake_plan]
          total_freight := st'.total_freight + rake_plan.freight_cost
          total_demurrage := st'.total_demurrage + rake_plan.demurrage_cost
          total_idle := st'.total_idle + rake_plan.idle_cost
          assigned := rake_plan.order_ids.foldl (fun s i => insert i s) st'.assigned }
      else st'

/-- The priority / due-date sort of `GreedyPlanner.plan` (Python `sorted` is a
stable ascending sort on the key tuple). -/
def sortOrders (orders : List Order) : List Order :=
  pySort (fun a b =>
    decide (a.priority < b.priority ∨ (a.priority = b.priority ∧ a.due_date ≤ b.due_date)))
    orders

/-- The per-run inventory ledger snapshot
(`{sy['code']: dict(sy.get('current_inventory', {})) for sy in stockyards}`). -/
def initInventory (stockyards : List Stockyard) : Inventory :=
  stockyards.map (fun sy => (sy.code, sy.current_inventory))

/-- `GreedyPlanner.plan` up to (and including) the rake loop: the final loop state. -/
def GreedyPlanner.planState (cfg : Config) (dist : Dist) (orders : List Order)
    (stockyards : List Stockyard) (rakes : List Rake) : GreedyState :=
  let sorted_orders := sortOrders orders
  let available_rakes := rakes.filter (fun r => r.status == "available")
  let st0 : GreedyState := ⟨[], ∅, 0, 0, 0, initInventory stockyards⟩
  available_rakes.foldl (greedy_rake_step cfg dist sorted_orders stockyards) st0

/-- `GreedyPlanner._calculate_utilization`: mean utilization over emitted rakes. -/
def calculate_utilization (plan_rakes : List RakePlan) : ℚ :=
  if plan_rakes.isEmpty then 0
  else (plan_rakes.map (·.utilization_pct)).sum / plan_rakes.length

/-- `GreedyPlanner.plan`: assemble the result dict from the final loop state. -/
def GreedyPlanner.plan (cfg : Config) (dist : Dist) (orders : List Order)
    (stockyards : List Stockyard) (rakes : List Rake) : PlanResult :=
  let fin := GreedyPlanner.planState cfg dist orders stockyards rakes
  { rakes := fin.plan_rakes
    total_cost := cfg.freight_weight * fin.total_freight +
      cfg.demurrage_weight * fin.total_demurrage + cfg.idle_weight * fin.total_idle
    freight_cost := fin.total_freight
    demurrage_cost := fin.total_demurrage
    idle_cost := fin.total_idle
    utilization_pct := calculate_utilization fin.plan_rakes
    orders_fulfilled := fin.assigned.card
    total_orders := orders.length
    algorithm := "greedy" }

/-- The constraints `ORToolsPlanner.plan` posts to the CP-SAT model: each order
on at most one rake, and per-rake capacity over `int()`-truncated tonnages.
Any solution the solver hands back (status OPTIMAL or FEASIBLE) satisfies them. -/
def cpFeasible (x : ℕ → ℕ → Bool) (orders : List Order) (rakes : List Rake) : Prop :=
  (∀ p ∈ orders.enum, ((List.range rakes.length).countP (fun j => x p.1 j)) ≤ 1) ∧
  (∀ p ∈ rakes.enum,
    ((orders.enum.map (fun q => if x q.1 p.1 then pyInt q.2.quantity_tonnes else 0)).sum
      ≤ pyInt p.2.total_capacity_tonnes))

instance (x : ℕ → ℕ → Bool) (orders : List Order) (rakes : List Rake) :
    Decidable (cpFeasible x orders rakes) :=
  inferInstanceAs (Decidable (_ ∧ _))

/-- Accumulator of the rake loop in `ORToolsPlanner._extract_solution`. -/
structure ExtractState where
  plan_rakes : List RakePlan
  assigned : Finset String
deriving DecidableEq

/-- One iteration (one rake) of `ORToolsPlanner._extract_solution`.  Note the
solver-assigned order ids enter `assigned` even when the rake is discarded for
being under `min_rake_size`. -/
def extract_rake_step (cfg : Config) (x : ℕ → ℕ → Bool) (orders : List Order)
    (st : ExtractState) (jr : ℕ × Rake) : ExtractState :=
  let rake_orders := (orders.enum.filter (fun q => x q.1 jr.1)).map (·.2)
  let total_weight := (rake_orders.map (·.quantity_tonnes)).sum
  let assigned' := rake_orders.foldl (fun s o => insert o.id s) st.assigned
  if ¬rake_orders.isEmpty ∧ cfg.min_rake_size ≤ total_weight then
    { plan_rakes := st.plan_rakes ++
        [{ rake_number := jr.2.rake_number
           origin_stockyard_code := none
           origin_stockyard_name := none
           destinations := (rake_orders.map (·.destination)).dedup
           orders := rake_orders.map (fun o =>
             ⟨o.id, o.order_number, o.product_code, o.quantity_tonnes, o.destination, 0⟩)
           order_ids := rake_orders.map (·.id)
           total_weight := total_weight
           capacity := jr.2.total_capacity_tonnes
           utilization_pct := total_weight / jr.2.total_capacity_tonnes * 100
           freight_cost := total_weight * 500 * cfg.freight_rate
           demurrage_cost := 0
           idle_cost := 0
           wagon_type := jr.2.wagon_type_code
           num_wagons := jr.2.num_wagons }]
      assigned := assigned' }
  else
    { st with assigned := assigned' }

/-- `ORToolsPlanner._extract_solution` over the (available) rakes.  `rakes` is
the already-filtered available list, matching the call site. -/
def extract_solution (cfg : Config) (x : ℕ → ℕ → Bool) (orders : List Order)
    (rakes : List Rake) : PlanResult :=
  let fin := rakes.enum.foldl (extract_rake_step cfg x orders) ⟨[], ∅⟩
  let total_freight := (fin.plan_rakes.map (·.freight_cost)).sum
  { rakes := fin.plan_rakes
    total_cost := total_freight
    freight_cost := total_freight
    demurrage_cost := 0
    idle_cost := 0
    utilization_pct := if fin.plan_rakes.isEmpty then 0
      else (fin.plan_rakes.map (·.utilization_pct)).sum / fin.plan_rakes.length
    orders_fulfilled := fin.assigned.card
    total_orders := orders.length
    algorithm := "or-tools (CP-SAT)" }

/-- The observable outcome of the external CP-SAT solver call: a solution
(status OPTIMAL/FEASIBLE), no solution (infeasible / timeout without
incumbent), or an exception anywhere inside the `or-tools` path. -/
inductive SolverOutcome where
  | solution (x : ℕ → ℕ → Bool)
  | noSolution
  | raises

/-- `ORToolsPlanner.plan`: scale guard, then the solver call, with the greedy
fallback paths; `.error` models an escaping exception. -/
def ORToolsPlanner.plan (cfg : Config) (dist : Dist) (outcome : SolverOutcome)
    (orders : List Order) (stockyards : List Stockyard) (rakes : List Rake) :
    Except Unit PlanResult :=
  let available_rakes := rakes.filter (fun r => r.status == "available")
  if 50 < orders.length ∨ 20 < available_rakes.length then
    .ok { GreedyPlanner.plan cfg dist orders stockyards rakes with
          algorithm := "or-tools (greedy fallback for large instance)" }
  else
    match outcome with
    | .raises => .error ()
    | .noSolution =>
        .ok { GreedyPlanner.plan cfg dist orders stockyards rakes with
              algorithm := "or-tools (no solution, greedy fallback)" }
    | .solution x => .ok (extract_solution cfg x orders available_rakes)

/-- Errors escaping `run_planner`: the explicit `ValueError` for an unknown
mode, or an exception propagated from the `or-tools` path. -/
inductive PlannerError where
  | valueError (msg : String)
  | raised
deriving DecidableEq, Repr

/-- `run_planner`: the mode dispatcher. -/
def run_planner (dist : Dist) (outcome : SolverOutcome) (mode : String) (cfg : Config)
    (orders : List Order) (stockyards : List Stockyard) (rakes : List Rake) :
    Except PlannerError PlanResult :=
  if mode = "greedy" then
    .ok (GreedyPlanner.plan cfg dist orders stockyards rakes)
  else if mode = "or-tools" then
    match ORToolsPlanner.plan cfg dist outcome orders stockyards rakes with
    | .ok r => .ok r
    | .error _ => .error .raised
  else if mode = "hybrid" then
    let greedy_result := GreedyPlanner.plan cfg dist orders stockyards rakes
    match ORToolsPlanner.plan cfg dist outcome orders stockyards rakes with
    | .error _ => .ok { greedy_result with algorithm := "hybrid (greedy only)" }
    | .ok ortools_result =>
      if ortools_result.total_cost < greedy_result.total_cost then
        .ok { ortools_result with algorithm := "hybrid (or-tools better)" }
      else
        .ok { greedy_result with algorithm := "hybrid (greedy better)" }
  else
    .error (.valueError ("Unknown planner mode: " ++ mode))

/-- The `planning_jobs` row fields the job runner and cancel endpoint touch.
Timestamps are abstract ticks. -/
structure Job where
  status : String
  progress : ℚ
  logs : List String
  started_at : Option ℕ
  completed_at : Option ℕ
deriving DecidableEq, Repr

/-- First committed state of `execute_planning_job`: flip to running, stamp
`started_at`, append a log line. -/
def jobStart (now : ℕ) (j : Job) : Job :=
  { j with
      status := "running"
      started_at := some now
      logs := j.logs ++ ["Starting planning job"] }

/-- Second committed state: data loaded, progress 20. -/
def jobLoaded (j : Job) : Job :=
  { j with progress := 20, logs := j.logs ++ ["Loaded orders, stockyards, rakes"] }

/-- Third committed state: about to run the planner, progress 40. -/
def jobRunningPlanner (j : Job) : Job :=
  { j with progress := 40, logs := j.logs ++ ["Running planner"] }

/-- Fourth committed state: planner returned, progress 80. -/
def jobPlanned (j : Job) : Job :=
  { j with progress := 80, logs := j.logs ++ ["Planning completed"] }

/-- Final committed state of the success path: status completed, progress 100,
`completed_at` stamped. -/
def jobCompleted (now : ℕ) (j : Job) : Job :=
  { j with
      status := "completed"
      completed_at := some now
      progress := 100
      logs := j.logs ++ ["Job completed successfully"] }

/-- The `except` handler of `execute_planning_job`: status failed,
`completed_at` stamped, stack trace appended — progress untouched. -/
def jobFail (now : ℕ) (msg : String) (j : Job) : Job :=
  { j with status := "failed", completed_at := some now, logs := j.logs ++ [msg] }

/-- Where, if anywhere, `execute_planning_job` raises.  The modelled raise
point is the planner call (`run_planner`), the only computation between
checkpoints that the reference traps in practice. -/
inductive RunOutcome where
  | success
  | plannerRaises
deriving DecidableEq, Repr

/-- The sequence of job-row states committed by `execute_planning_job`,
in commit order. -/
def executeTrace (now : ℕ) (outcome : RunOutcome) (j : Job) : List Job :=
  let s1 := jobStart now j
  let s2 := jobLoaded s1
  let s3 := jobRunningPlanner s2
  match outcome with
  | .success =>
    let s4 := jobPlanned s3
    [s1, s2, s3, s4, jobCompleted now s4]
  | .plannerRaises =>
    [s1, s2, s3, jobFail now "ERROR" s3]

/-- The job row as left behind by `execute_planning_job`. -/
def execute_planning_job (now : ℕ) (outcome : RunOutcome) (j : Job) : Job :=
  (executeTrace now outcome j).getLast?.getD j

/-- The `cancel_job` endpoint: reject terminal states, otherwise flip to
cancelled and stamp `completed_at` — progress untouched. -/
def cancel_job (now : ℕ) (j : Job) : Except String Job :=
  if j.status ∈ ["completed", "failed", "cancelled"] then
    .error "Cannot cancel job in current state"
  else
    .ok { j with
            status := "cancelled"
            completed_at := some now
            logs := j.logs ++ ["Job cancelled by user"] }

/-- The `plans` row fields `commit_plan` touches. -/
structure PlanRow where
  id : String
  committed : Bool
  committed_at : Option ℕ
deriving DecidableEq, Repr

/-- The `plan_rakes` row fields `commit_plan` reads: owning plan, referenced
rake number, and the order ids of its assigned-order records. -/
structure PlanRakeRow where
  plan_id : String
  rake_number : String
  orders_assigned : List String
deriving DecidableEq, Repr

/-- The `rakes` row fields `commit_plan` touches. -/
structure RakeRow where
  rake_number : String
  status : String
deriving DecidableEq, Repr

/-- The `orders` row fields `commit_plan` touches. -/
structure OrderRow where
  id : String
  status : String
deriving DecidableEq, Repr

/-- The slice of the database `commit_plan` operates on. -/
structure DB where
  plans : List PlanRow
  plan_rakes : List PlanRakeRow
  rakes : List RakeRow
  orders : List OrderRow
deriving DecidableEq, Repr

/-- Mark the first plan row with this id committed
(`plan.committed = True; plan.committed_at = now` on the row `.first()` returned). -/
def setPlanCommitted (pid : String) (now : ℕ) : List PlanRow → List PlanRow
  | [] => []
  | p :: rest =>
      if p.id = pid then { p with committed := true, committed_at := some now } :: rest
      else p :: setPlanCommitted pid now rest

/-- Set the first rake row with this rake number to status assigned
(the `.first()` row, when found). -/
def setFirstRakeAssigned (num : String) : List RakeRow → List RakeRow
  | [] => []
  | r :: rest =>
      if r.rake_number = num then { r with status := "assigned" } :: rest
      else r :: setFirstRakeAssigned num rest

/-- Set the first order row with this id to status assigned. -/
def setFirstOrderAssigned (oid : String) : List OrderRow → List OrderRow
  | [] => []
  | o :: rest =>
      if o.id = oid then { o with status := "assigned" } :: rest
      else o :: setFirstOrderAssigned oid rest

/-- The `commit_plan` endpoint: returns the database after the call together
with the HTTP-level result; the error branches return before any mutation. -/
def commit_plan (now : ℕ) (plan_id : String) (db : DB) : DB × Except String String :=
  match db.plans.find? (fun p => p.id == plan_id) with
  | none => (db, .error "Plan not found")
  | some p =>
    if p.committed then (db, .error "Plan already committed")
    else
      let plans' := setPlanCommitted plan_id now db.plans
      let prs := db.plan_rakes.filter (fun pr => pr.plan_id == plan_id)
      let rakes' := prs.foldl (fun rs pr => setFirstRakeAssigned pr.rake_number rs) db.rakes
      let orders' := prs.foldl
        (fun os pr => pr.orders_assigned.foldl (fun os2 oid => setFirstOrderAssigned oid os2) os)
        db.orders
      ({ plans := plans', plan_rakes := db.plan_rakes, rakes := rakes', orders := orders' },
       .ok "Plan committed successfully")

/-- Spec-side reading of "the point has this coordinate" under Python
truthiness: the field is present and nonzero. -/
def presentNonzero (x : Option ℚ) : Prop := ∃ a, x = some a ∧ a ≠ 0

/-- Spec-side qualification of a stockyard for an unpinned order: its
remaining stock of the order's product is at least the order quantity. -/
def qualifies (inventory : Inventory) (order : Order) (sy : Stockyard) : Prop :=
  ∃ a, invGet inventory sy.code order.product_code = some a ∧ order.quantity_tonnes ≤ a

/-- The set of distinct order ids appearing in the assigned-order lists of the
rakes actually emitted in a plan. -/
def planAssignedUnion (p : PlanResult) : Finset String :=
  p.rakes.foldl (fun s rp => s ∪ rp.order_ids.toFinset) ∅

/-- The set of distinct order ids the CP-SAT solution assigns to any rake
(also those on rakes later discarded for being under `min_rake_size`). -/
def solverAssignedSet (x : ℕ → ℕ → Bool) (orders : List Order) (rakes : List Rake) :
    Finset String :=
  rakes.enum.foldl
    (fun s p => s ∪ (((orders.enum.filter (fun q => x q.1 p.1)).map (·.2)).map (·.id)).toFinset)
    ∅

/-- The three PlanRake weight invariants of the spec, for one emitted rake:
total weight is the sum of its assigned quantities, bounded by the rake
capacity recorded in the payload, and at least the configured minimum. -/
def rakeOk (min_rake_size : ℚ) (rp : RakePlan) : Prop :=
  rp.total_weight = (rp.orders.map (·.quantity)).sum ∧
  rp.total_weight ≤ rp.capacity ∧
  min_rake_size ≤ rp.total_weight

/-- Loop invariant of the `_pack_rake` order sweep: the running weight is the
sum of the packed quantities, and is bounded by the rake capacity once at
least one order is packed. -/
def packInv (cap : ℚ) (st : PackState) : Prop :=
  st.current_weight = (st.rake_orders.map (·.quantity)).sum ∧
  (st.rake_orders = [] ∨ st.current_weight ≤ cap)

/-- Pointwise domination of inventory ledgers: same keys, and every remaining
quantity in the first is at most the one in the second. -/
def invLE (inv2 inv1 : Inventory) : Prop :=
  ∀ c p, ((invGet inv2 c p).isSome ↔ (invGet inv1 c p).isSome) ∧
    invGetD inv2 c p ≤ invGetD inv1 c p

section Helpers

lemma truthyQ_eq_true_iff (x : Option ℚ) : truthyQ x = true ↔ presentNonzero x := by
  cases x <;> simp [truthyQ, presentNonzero]

lemma truthyQ_some_zero : truthyQ (some 0) = false := by simp [truthyQ]

lemma mem_pySortInsert {A : Type} (le : A → A → Bool) (x z : A) (l : List A) :
    z ∈ pySortInsert le x l ↔ z = x ∨ z ∈ l := by
  induction l with
  | nil => simp [pySortInsert]
  | cons y ys ih =>
    rw [pySortInsert]
    split
    · simp only [List.mem_cons, ih]
      tauto
    · simp only [List.mem_cons]

lemma length_pySortInsert {A : Type} (le : A → A → Bool) (x : A) (l : List A) :
    (pySortInsert le x l).length = l.length + 1 := by
  induction l with
  | nil => rfl
  | cons y ys ih =>
    rw [pySortInsert]
    split
    · simp [ih]
    · simp

lemma mem_pySort {A : Type} (le : A → A → Bool) (z : A) (l : List A) :
    z ∈ pySort le l ↔ z ∈ l := by
  induction l with
  | nil => simp [pySort]
  | cons y ys ih =>
    show z ∈ pySortInsert le y (pySort le ys) ↔ _
    rw [mem_pySortInsert, ih]
    simp

lemma length_pySort {A : Type} (le : A → A → Bool) (l : List A) :
    (pySort le l).length = l.length := by
  induction l with
  | nil => rfl
  | cons y ys ih =>
    show (pySortInsert le y (pySort le ys)).length = _
    rw [length_pySortInsert, ih]
    rfl

lemma pairwise_pySortInsert {A : Type} (le : A → A → Bool)
    (htrans : ∀ a b c, le a b = true → le b c = true → le a c = true)
    (htot : ∀ a b, (le a b || le b a) = true)
    (x : A) (l : List A) (h : l.Pairwise (fun a b => le a b = true)) :
    (pySortInsert le x l).Pairwise (fun a b => le a b = true) := by
  induction l with
  | nil => simp [pySortInsert]
  | cons y ys ih =>
    rcases List.pairwise_cons.mp h with ⟨hy, hys⟩
    rw [pySortInsert]
    split
    · rename_i hc
      refine List.pairwise_cons.mpr ⟨?_, ih hys⟩
      intro z hz
      rcases (mem_pySortInsert le x z ys).mp hz with rfl | hzys
      · exact (Bool.and_eq_true _ _).mp hc |>.1
      · exact hy z hzys
    · rename_i hc
      have hxy : le x y = true := by
        rcases Bool.or_eq_true _ _ |>.mp (htot x y) with h1 | h1
        · exact h1
        · by_cases h2 : le x y = true
          · exact h2
          · exact absurd (by simp [h1, h2]) hc
      refine List.pairwise_cons.mpr ⟨?_, h⟩
      intro z hz
      rcases List.mem_cons.mp hz with rfl | hzys
      · exact hxy
      · exact htrans x y z hxy (hy z hzys)

lemma pairwise_pySort {A : Type} (le : A → A → Bool)
    (htrans : ∀ a b c, le a b = true → le b c = true → le a c = true)
    (htot : ∀ a b, (le a b || le b a) = true)
    (l : List A) : (pySort le l).Pairwise (fun a b => le a b = true) := by
  induction l with
  | nil => simp [pySort]
  | cons y ys ih => exact pairwise_pySortInsert le htrans htot y (pySort le ys) ih

lemma head_pySort_least {A : Type} (le : A → A → Bool)
    (htrans : ∀ a b c, le a b = true → le b c = true → le a c = true)
    (htot : ∀ a b, (le a b || le b a) = true)
    (l : List A) (x : A) (hx : (pySort le l).head? = some x) :
    x ∈ l ∧ ∀ y ∈ l, le x y = true := by
  have hp := pairwise_pySort le htrans htot l
  cases h : pySort le l with
  | nil => rw [h] at hx; exact absurd hx (by simp)
  | cons a t =>
    rw [h] at hx
    have hxa : a = x := by simpa using hx
    rw [h, hxa] at hp
    have hmem : x ∈ l := (mem_pySort le x l).mp (by rw [h, hxa]; exact List.mem_cons_self x t)
    refine ⟨hmem, fun y hy => ?_⟩
    have hy' : y ∈ x :: t := by
      rw [← hxa, ← h]
      exact (mem_pySort le y l).mpr hy
    rcases List.mem_cons.mp hy' with rfl | hyt
    · have := htot y y
      simpa using this
    · exact (List.pairwise_cons.mp hp).1 y hyt

lemma pySort_head_isSome {A : Type} (le : A → A → Bool) (l : List A) (h : l ≠ []) :
    ((pySort le l).head?).isSome = true := by
  cases hms : pySort le l with
  | nil =>
    have : l = [] := by
      have hlen := length_pySort le l
      rw [hms] at hlen
      exact List.length_eq_zero.mp hlen.symm
    exact absurd this h
  | cons a t => simp

lemma mem_selCandidates (order : Order) (stockyards : List Stockyard)
    (inventory : Inventory) (sy : Stockyard) :
    sy ∈ selCandidates order stockyards inventory ↔
      sy ∈ stockyards ∧ qualifies inventory order sy := by
  unfold selCandidates qualifies
  rw [List.mem_filter]
  constructor
  · rintro ⟨h1, h2⟩
    refine ⟨h1, ?_⟩
    cases hg : invGet inventory sy.code order.product_code with
    | none => rw [hg] at h2; exact absurd h2 (by simp)
    | some a => rw [hg] at h2; exact ⟨a, rfl, by simpa using h2⟩
  · rintro ⟨h1, a, ha, hle⟩
    exact ⟨h1, by rw [ha]; simpa using hle⟩

lemma select_pin (dist : Dist) (order : Order) (stockyards : List Stockyard)
    (inventory : Inventory) (h : truthyS order.source_stockyard_id = true) :
    select_source_stockyard dist order stockyards inventory =
      stockyards.find? (fun s => some s.id == order.source_stockyard_id) := by
  rw [select_source_stockyard, if_pos h]

lemma select_no_pin_empty (dist : Dist) (order : Order) (stockyards : List Stockyard)
    (inventory : Inventory) (h : truthyS order.source_stockyard_id = false)
    (he : (selCandidates order stockyards inventory).isEmpty = true) :
    select_source_stockyard dist order stockyards inventory = none := by
  rw [select_source_stockyard, if_neg (by simp [h]), if_pos he]

lemma select_dist_branch (dist : Dist) (order : Order) (stockyards : List Stockyard)
    (inventory : Inventory) (h : truthyS order.source_stockyard_id = false)
    (he : (selCandidates order stockyards inventory).isEmpty = false)
    (hc : (truthyQ order.destination_latitude && truthyQ order.destination_longitude) = true) :
    select_source_stockyard dist order stockyards inventory =
      (pySort (fun a b =>
        decide (dist a.geo ⟨order.destination_latitude, order.destination_longitude⟩ ≤
                dist b.geo ⟨order.destination_latitude, order.destination_longitude⟩))
        (selCandidates order stockyards inventory)).head? := by
  rw [select_source_stockyard, if_neg (by simp [h]), if_neg (by simp [he]), if_pos hc]

lemma select_stock_branch (dist : Dist) (order : Order) (stockyards : List Stockyard)
    (inventory : Inventory) (h : truthyS order.source_stockyard_id = false)
    (he : (selCandidates order stockyards inventory).isEmpty = false)
    (hc : (truthyQ order.destination_latitude && truthyQ order.destination_longitude) = false) :
    select_source_stockyard dist order stockyards inventory =
      (pySort (fun a b =>
        decide (invGetD inventory b.code order.product_code ≤
                invGetD inventory a.code order.product_code))
        (selCandidates order stockyards inventory)).head? := by
  rw [select_source_stockyard, if_neg (by simp [h]), if_neg (by simp [he]), if_neg (by simp [hc])]

lemma select_dist_min (dist : Dist) (order : Order) (stockyards : List Stockyard)
    (inventory : Inventory) (h : truthyS order.source_stockyard_id = false)
    (he : (selCandidates order stockyards inventory).isEmpty = false)
    (hc : (truthyQ order.destination_latitude && truthyQ order.destination_longitude) = true)
    (sy : Stockyard)
    (hsy : select_source_stockyard dist order stockyards inventory = some sy) :
    sy ∈ selCandidates order stockyards inventory ∧
      ∀ c ∈ selCandidates order stockyards inventory,
        dist sy.geo ⟨order.destination_latitude, order.destination_longitude⟩ ≤
        dist c.geo ⟨order.destination_latitude, order.destination_longitude⟩ := by
  rw [select_dist_branch dist order stockyards inventory h he hc] at hsy
  have h1 : ∀ a b c : Stockyard,
      decide (dist a.geo ⟨order.destination_latitude, order.destination_longitude⟩ ≤
              dist b.geo ⟨order.destination_latitude, order.destination_longitude⟩) = true →
      decide (dist b.geo ⟨order.destination_latitude, order.destination_longitude⟩ ≤
              dist c.geo ⟨order.destination_latitude, order.destination_longitude⟩) = true →
      decide (dist a.geo ⟨order.destination_latitude, order.destination_longitude⟩ ≤
              dist c.geo ⟨order.destination_latitude, order.destination_longitude⟩) = true := by
    intro a b c hab hbc
    rw [decide_eq_true_eq] at hab hbc
    exact decide_eq_true (le_trans hab hbc)
  have h2 : ∀ a b : Stockyard,
      (decide (dist a.geo ⟨order.destination_latitude, order.destination_longitude⟩ ≤
               dist b.geo ⟨order.destination_latitude, order.destination_longitude⟩) ||
       decide (dist b.geo ⟨order.destination_latitude, order.destination_longitude⟩ ≤
               dist a.geo ⟨order.destination_latitude, order.destination_longitude⟩)) = true := by
    intro a b
    rcases le_total (dist a.geo ⟨order.destination_latitude, order.destination_longitude⟩)
      (dist b.geo ⟨order.destination_latitude, order.destination_longitude⟩) with hq | hq
    · rw [decide_eq_true hq]
      rfl
    · rw [decide_eq_true hq]
      simp
  have hh := head_pySort_least _ h1 h2 _ sy hsy
  exact ⟨hh.1, fun c hcm => by
    have := hh.2 c hcm
    rw [decide_eq_true_eq] at this
    exact this⟩

lemma select_stock_max (dist : Dist) (order : Order) (stockyards : List Stockyard)
    (inventory : Inventory) (h : truthyS order.source_stockyard_id = false)
    (he : (selCandidates order stockyards inventory).isEmpty = false)
    (hc : (truthyQ order.destination_latitude && truthyQ order.destination_longitude) = false)
    (sy : Stockyard)
    (hsy : select_source_stockyard dist order stockyards inventory = some sy) :
    sy ∈ selCandidates order stockyards inventory ∧
      ∀ c ∈ selCandidates order stockyards inventory,
        invGetD inventory c.code order.product_code ≤
        invGetD inventory sy.code order.product_code := by
  rw [select_stock_branch dist order stockyards inventory h he hc] at hsy
  have h1 : ∀ a b c : Stockyard,
      decide (invGetD inventory b.code order.product_code ≤
              invGetD inventory a.code order.product_code) = true →
      decide (invGetD inventory c.code order.product_code ≤
              invGetD inventory b.code order.product_code) = true →
      decide (invGetD inventory c.code order.product_code ≤
              invGetD inventory a.code order.product_code) = true := by
    intro a b c hab hbc
    rw [decide_eq_true_eq] at hab hbc
    exact decide_eq_true (le_trans hbc hab)
  have h2 : ∀ a b : Stockyard,
      (decide (invGetD inventory b.code order.product_code ≤
               invGetD inventory a.code order.product_code) ||
       decide (invGetD inventory a.code order.product_code ≤
               invGetD inventory b.code order.product_code)) = true := by
    intro a b
    rcases le_total (invGetD inventory b.code order.product_code)
      (invGetD inventory a.code order.product_code) with hq | hq
    · rw [decide_eq_true hq]
      rfl
    · rw [decide_eq_true hq]
      simp
  have hh := head_pySort_least _ h1 h2 _ sy hsy
  exact ⟨hh.1, fun c hcm => by
    have := hh.2 c hcm
    rw [decide_eq_true_eq] at this
    exact this⟩

end Helpers

/-- C7: The source selector, for every order and ledger state: if the order has
a pinned `source_stockyard_id` it returns that stockyard verbatim with no
inventory check (the result does not depend on the ledger, any returned
stockyard carries the pinned id, and a stockyard with the pinned id is found
whenever one exists); otherwise it considers exactly the stockyards whose
remaining stock of the order's product is at least the order quantity
(`qualifies`): any returned stockyard qualifies, it is nearest to the
destination when the order has truthy destination coordinates, it has the most
remaining stock otherwise, some qualifying stockyard is returned whenever one
exists, and `none` is returned when no stockyard qualifies. -/
theorem select_source_spec (dist : Dist) (order : Order)
    (stockyards : List Stockyard) (inventory : Inventory) :
    (truthyS order.source_stockyard_id = true →
      (∀ inventory', select_source_stockyard dist order stockyards inventory =
        select_source_stockyard dist order stockyards inventory') ∧
      (∀ sy, select_source_stockyard dist order stockyards inventory = some sy →
        sy ∈ stockyards ∧ some sy.id = order.source_stockyard_id) ∧
      ((∃ sy ∈ stockyards, some sy.id = order.source_stockyard_id) →
        (select_source_stockyard dist order stockyards inventory).isSome = true)) ∧
    (truthyS order.source_stockyard_id = false →
      (∀ sy, select_source_stockyard dist order stockyards inventory = some sy →
        sy ∈ stockyards ∧ qualifies inventory order sy) ∧
      ((¬ ∃ sy ∈ stockyards, qualifies inventory order sy) →
        select_source_stockyard dist order stockyards inventory = none) ∧
      ((∃ sy ∈ stockyards, qualifies inventory order sy) →
        (select_source_stockyard dist order stockyards inventory).isSome = true) ∧
      ((truthyQ order.destination_latitude && truthyQ order.destination_longitude) = true →
        ∀ sy, select_source_stockyard dist order stockyards inventory = some sy →
          ∀ c ∈ stockyards, qualifies inventory order c →
            dist sy.geo ⟨order.destination_latitude, order.destination_longitude⟩ ≤
            dist c.geo ⟨order.destination_latitude, order.destination_longitude⟩) ∧
      ((truthyQ order.destination_latitude && truthyQ order.destination_longitude) = false →
        ∀ sy, select_source_stockyard dist order stockyards inventory = some sy →
          ∀ c ∈ stockyards, qualifies inventory order c →
            invGetD inventory c.code order.product_code ≤
            invGetD inventory sy.code order.product_code)) := by
  constructor
  · intro hpin
    refine ⟨fun inventory' => ?_, fun sy hsy => ?_, fun ⟨sy, hmem, hid⟩ => ?_⟩
    · rw [select_pin dist order stockyards inventory hpin,
        select_pin dist order stockyards inventory' hpin]
    · rw [select_pin dist order stockyards inventory hpin] at hsy
      exact ⟨List.mem_of_find?_eq_some hsy, by simpa using List.find?_some hsy⟩
    · rw [select_pin dist order stockyards inventory hpin]
      rw [List.find?_isSome]
      exact ⟨sy, hmem, by simpa using hid⟩
  · intro hpin
    by_cases hemp : (selCandidates order stockyards inventory).isEmpty = true
    · have hnone := select_no_pin_empty dist order stockyards inventory hpin hemp
      have hnil : selCandidates order stockyards inventory = [] := List.isEmpty_iff.mp hemp
      refine ⟨fun sy hsy => ?_, fun _ => hnone, fun ⟨sy, hmem, hq⟩ => ?_, ?_, ?_⟩
      · rw [hnone] at hsy; exact absurd hsy (by simp)
      · have : sy ∈ selCandidates order stockyards inventory :=
          (mem_selCandidates order stockyards inventory sy).mpr ⟨hmem, hq⟩
        rw [hnil] at this; exact absurd this (by simp)
      · intro _ sy hsy; rw [hnone] at hsy; exact absurd hsy (by simp)
      · intro _ sy hsy; rw [hnone] at hsy; exact absurd hsy (by simp)
    · have hemp' : (selCandidates order stockyards inventory).isEmpty = false := by
        cases h : (selCandidates order stockyards inventory).isEmpty
        · rfl
        · exact absurd h hemp
      have hne : selCandidates order stockyards inventory ≠ [] := by
        intro hnil
        rw [hnil] at hemp'
        simp at hemp'
      have hsound : ∀ sy, select_source_stockyard dist order stockyards inventory = some sy →
          sy ∈ selCandidates order stockyards inventory := by
        intro sy hsy
        cases hc : (truthyQ order.destination_latitude &&
            truthyQ order.destination_longitude) with
        | true =>
          exact (select_dist_min dist order stockyards inventory hpin hemp' hc sy hsy).1
        | false =>
          exact (select_stock_max dist order stockyards inventory hpin hemp' hc sy hsy).1
      refine ⟨fun sy hsy => (mem_selCandidates order stockyards inventory sy).mp
          (hsound sy hsy), fun hno => ?_, fun _ => ?_, ?_, ?_⟩
      · exfalso
        rcases List.exists_mem_of_ne_nil _ hne with ⟨sy, hsy⟩
        exact hno ⟨sy, (mem_selCandidates order stockyards inventory sy).mp hsy⟩
      · cases hc : (truthyQ order.destination_latitude &&
            truthyQ order.destination_longitude) with
        | true =>
          rw [select_dist_branch dist order stockyards inventory hpin hemp' hc]
          exact pySort_head_isSome _ _ hne
        | false =>
          rw [select_stock_branch dist order stockyards inventory hpin hemp' hc]
          exact pySort_head_isSome _ _ hne
      · intro hc sy hsy c hcmem hcq
        exact (select_dist_min dist order stockyards inventory hpin hemp' hc sy hsy).2 c
          ((mem_selCandidates order stockyards inventory c).mpr ⟨hcmem, hcq⟩)
      · intro hc sy hsy c hcmem hcq
        exact (select_stock_max dist order stockyards inventory hpin hemp' hc sy hsy).2 c
          ((mem_selCandidates order stockyards inventory c).mpr ⟨hcmem, hcq⟩)

/-- Witness for C7: on a concrete unpinned COAL order over two stockyards the
selector returns a qualifying member of the stockyard list. -/
theorem select_source_spec_witness :
    ∃ sy, select_source_stockyard (fun _ _ => 0)
        { id := "o1", order_number := "N1", product_code := "COAL",
          quantity_tonnes := 1000, destination := "D" }
        [⟨"id1", "SY1", "S one", none, none, [("COAL", 5000)]⟩,
         ⟨"id2", "SY2", "S two", none, none, [("COAL", 8000)]⟩]
        [("SY1", [("COAL", 5000)]), ("SY2", [("COAL", 8000)])] = some sy ∧
      sy ∈ [⟨"id1", "SY1", "S one", none, none, [("COAL", 5000)]⟩,
            (⟨"id2", "SY2", "S two", none, none, [("COAL", 8000)]⟩ : Stockyard)] ∧
      qualifies [("SY1", [("COAL", 5000)]), ("SY2", [("COAL", 8000)])]
        { id := "o1", order_number := "N1", product_code := "COAL",
          quantity_tonnes := 1000, destination := "D" } sy := by
  have h := (select_source_spec (fun _ _ => 0)
      { id := "o1", order_number := "N1", product_code := "COAL",
        quantity_tonnes := 1000, destination := "D" }
      [⟨"id1", "SY1", "S one", none, none, [("COAL", 5000)]⟩,
       ⟨"id2", "SY2", "S two", none, none, [("COAL", 8000)]⟩]
      [("SY1", [("COAL", 5000)]), ("SY2", [("COAL", 8000)])]).2 rfl
  have hs := h.2.2.1 ⟨⟨"id2", "SY2", "S two", none, none, [("COAL", 8000)]⟩,
    by decide, ⟨8000, rfl, by norm_num⟩⟩
  rcases Option.isSome_iff_exists.mp hs with ⟨sy, hsy⟩
  exact ⟨sy, hsy, h.1 sy hsy⟩

/-- C10: a coordinate whose value is exactly 0 is treated as missing: the
distance oracle returns the 500 km fallback whenever any of the four
coordinate values is `some 0`, and for an unpinned order whose destination
latitude or longitude is `some 0` the selector ignores the distance oracle
entirely (same result for every oracle) and returns a most-stocked candidate. -/
theorem zero_coordinate_missing (origin destination : GeoPoint) (dist : Dist)
    (order : Order) (stockyards : List Stockyard) (inventory : Inventory) :
    ((origin.latitude = some 0 ∨ origin.longitude = some 0 ∨
      destination.latitude = some 0 ∨ destination.longitude = some 0) →
      calculate_distance origin destination = 500) ∧
    (truthyS order.source_stockyard_id = false →
      (order.destination_latitude = some 0 ∨ order.destination_longitude = some 0) →
      (∀ dist' : Dist, select_source_stockyard dist order stockyards inventory =
        select_source_stockyard dist' order stockyards inventory) ∧
      (∀ sy, select_source_stockyard dist order stockyards inventory = some sy →
        ∀ c ∈ stockyards, qualifies inventory order c →
          invGetD inventory c.code order.product_code ≤
          invGetD inventory sy.code order.product_code)) := by
  constructor
  · intro hz
    have hcond : (truthyQ origin.latitude && truthyQ origin.longitude &&
        truthyQ destination.latitude && truthyQ destination.longitude) = false := by
      rcases hz with h | h | h | h <;> rw [h] <;> simp [truthyQ_some_zero]
    rw [calculate_distance, hcond]
    simp
  · intro hpin hz
    have hc : (truthyQ order.destination_latitude &&
        truthyQ order.destination_longitude) = false := by
      rcases hz with h | h <;> rw [h] <;> simp [truthyQ_some_zero]
    constructor
    · intro dist'
      by_cases hemp : (selCandidates order stockyards inventory).isEmpty = true
      · rw [select_no_pin_empty dist order stockyards inventory hpin hemp,
          select_no_pin_empty dist' order stockyards inventory hpin hemp]
      · have hemp' : (selCandidates order stockyards inventory).isEmpty = false := by
          cases hb : (selCandidates order stockyards inventory).isEmpty
          · rfl
          · exact absurd hb hemp
        rw [select_stock_branch dist order stockyards inventory hpin hemp' hc,
          select_stock_branch dist' order stockyards inventory hpin hemp' hc]
    · intro sy hsy c hcmem hcq
      by_cases hemp : (selCandidates order stockyards inventory).isEmpty = true
      · rw [select_no_pin_empty dist order stockyards inventory hpin hemp] at hsy
        exact absurd hsy (by simp)
      · have hemp' : (selCandidates order stockyards inventory).isEmpty = false := by
          cases hb : (selCandidates order stockyards inventory).isEmpty
          · rfl
          · exact absurd hb hemp
        exact (select_stock_max dist order stockyards inventory hpin hemp' hc sy hsy).2 c
          ((mem_selCandidates order stockyards inventory c).mpr ⟨hcmem, hcq⟩)

/-- Witness for C10: with a present-but-zero destination latitude the fallback
and the oracle-independence are observable on concrete data. -/
theorem zero_coordinate_missing_witness :
    calculate_distance ⟨some 0, some 5⟩ ⟨some 1, some 2⟩ = 500 ∧
    select_source_stockyard (fun _ _ => 0)
        { id := "z", order_number := "NZ", product_code := "COAL",
          quantity_tonnes := 1000, destination := "D",
          destination_latitude := some 0, destination_longitude := some 7 }
        [⟨"id1", "SY1", "S one", none, none, [("COAL", 5000)]⟩,
         ⟨"id2", "SY2", "S two", none, none, [("COAL", 8000)]⟩]
        [("SY1", [("COAL", 5000)]), ("SY2", [("COAL", 8000)])] =
      select_source_stockyard (fun _ _ => 42)
        { id := "z", order_number := "NZ", product_code := "COAL",
          quantity_tonnes := 1000, destination := "D",
          destination_latitude := some 0, destination_longitude := some 7 }
        [⟨"id1", "SY1", "S one", none, none, [("COAL", 5000)]⟩,
         ⟨"id2", "SY2", "S two", none, none, [("COAL", 8000)]⟩]
        [("SY1", [("COAL", 5000)]), ("SY2", [("COAL", 8000)])] := by
  constructor
  · exact (zero_coordinate_missing ⟨some 0, some 5⟩ ⟨some 1, some 2⟩ (fun _ _ => 0)
      { id := "z", order_number := "NZ", product_code := "COAL",
        quantity_tonnes := 1000, destination := "D" } [] []).1 (Or.inl rfl)
  · exact ((zero_coordinate_missing ⟨some 0, some 5⟩ ⟨some 1, some 2⟩ (fun _ _ => 0)
      { id := "z", order_number := "NZ", product_code := "COAL",
        quantity_tonnes := 1000, destination := "D",
        destination_latitude := some 0, destination_longitude := some 7 }
      [⟨"id1", "SY1", "S one", none, none, [("COAL", 5000)]⟩,
       ⟨"id2", "SY2", "S two", none, none, [("COAL", 8000)]⟩]
      [("SY1", [("COAL", 5000)]), ("SY2", [("COAL", 8000)])]).2 rfl
      (Or.inl rfl)).1 (fun _ _ => 42)

/-- C8 counterexample: both points have both coordinates (latitude `some 0`,
longitude `some 1`), yet the oracle returns 500 km, not the haversine distance
of those coordinates (which here is 0, the two points being identical): a
present-but-zero coordinate already triggers the fallback. -/
theorem calculate_distance_claim_cex :
    (GeoPoint.mk (some 0) (some 1)).latitude.isSome = true ∧
    (GeoPoint.mk (some 0) (some 1)).longitude.isSome = true ∧
    calculate_distance ⟨some 0, some 1⟩ ⟨some 0, some 1⟩ ≠ haversine 0 1 0 1 := by
  refine ⟨rfl, rfl, ?_⟩
  have h1 : calculate_distance ⟨some 0, some 1⟩ ⟨some 0, some 1⟩ = 500 := by
    rw [calculate_distance]
    norm_num [truthyQ]
  have h2 : haversine 0 1 0 1 = 0 := by
    unfold haversine radians
    norm_num
  rw [h1, h2]
  norm_num

/-- C8 (amended): the distance oracle returns the haversine distance with
Earth radius 6371 km when all four coordinate values are present and nonzero
(Python truthiness), and exactly 500 km in every other case — a missing or a
zero coordinate on either endpoint; it never fails (it is a total function). -/
theorem calculate_distance_spec (origin destination : GeoPoint) :
    ((presentNonzero origin.latitude ∧ presentNonzero origin.longitude ∧
      presentNonzero destination.latitude ∧ presentNonzero destination.longitude) →
      calculate_distance origin destination =
        haversine (origin.latitude.getD 0) (origin.longitude.getD 0)
          (destination.latitude.getD 0) (destination.longitude.getD 0)) ∧
    ((¬(presentNonzero origin.latitude ∧ presentNonzero origin.longitude ∧
       presentNonzero destination.latitude ∧ presentNonzero destination.longitude)) →
      calculate_distance origin destination = 500) := by
  constructor
  · rintro ⟨h1, h2, h3, h4⟩
    rw [calculate_distance, if_pos]
    rw [(truthyQ_eq_true_iff _).mpr h1, (truthyQ_eq_true_iff _).mpr h2,
      (truthyQ_eq_true_iff _).mpr h3, (truthyQ_eq_true_iff _).mpr h4]
    rfl
  · intro hn
    cases hb : (truthyQ origin.latitude && truthyQ origin.longitude &&
        truthyQ destination.latitude && truthyQ destination.longitude) with
    | false =>
      rw [calculate_distance, hb]
      simp
    | true =>
      exfalso
      apply hn
      have hb' := hb
      rw [Bool.and_eq_true, Bool.and_eq_true, Bool.and_eq_true] at hb'
      exact ⟨(truthyQ_eq_true_iff _).mp hb'.1.1.1, (truthyQ_eq_true_iff _).mp hb'.1.1.2,
        (truthyQ_eq_true_iff _).mp hb'.1.2, (truthyQ_eq_true_iff _).mp hb'.2⟩

/-- Witness for C8 (amended): a fully nonzero pair takes the haversine branch
and a missing latitude takes the 500 km fallback. -/
theorem calculate_distance_spec_witness :
    calculate_distance ⟨some 1, some 2⟩ ⟨some 3, some 4⟩ = haversine 1 2 3 4 ∧
    calculate_distance ⟨none, some 2⟩ ⟨some 3, some 4⟩ = 500 := by
  constructor
  · exact (calculate_distance_spec ⟨some 1, some 2⟩ ⟨some 3, some 4⟩).1
      ⟨⟨1, rfl, by norm_num⟩, ⟨2, rfl, by norm_num⟩, ⟨3, rfl, by norm_num⟩,
       ⟨4, rfl, by norm_num⟩⟩
  · refine (calculate_distance_spec ⟨none, some 2⟩ ⟨some 3, some 4⟩).2 ?_
    rintro ⟨⟨a, ha, _⟩, _⟩
    exact Option.noConfusion ha

/-- C3 counterexample: mode `"optimal"` is not a recognised mode of
`run_planner` — it raises `ValueError` instead of returning the CP-SAT
packer's result — while `"or-tools"` (outside the claim's set
{greedy, optimal, hybrid}) does return a plan. -/
theorem run_planner_optimal_cex :
    run_planner (fun _ _ => 0) SolverOutcome.noSolution "optimal" {} [] [] [] =
      .error (.valueError "Unknown planner mode: optimal") ∧
    ("or-tools" ∉ (["greedy", "optimal", "hybrid"] : List String)) ∧
    (∃ r, run_planner (fun _ _ => 0) SolverOutcome.noSolution "or-tools" {} [] [] [] =
      .ok r) := by
  refine ⟨rfl, by decide,
    ⟨{ GreedyPlanner.plan {} (fun _ _ => 0) [] [] [] with
       algorithm := "or-tools (no solution, greedy fallback)" }, rfl⟩⟩

/-- C3 (amended): the dispatcher, given mode `"or-tools"`, runs the CP-SAT
packer and returns its result (propagating an escaping exception); given any
mode outside {greedy, or-tools, hybrid} it fails with a `ValueError` (the
spec's ConfigError) instead of returning a plan. -/
theorem run_planner_modes (dist : Dist) (outcome : SolverOutcome) (cfg : Config)
    (orders : List Order) (stockyards : List Stockyard) (rakes : List Rake)
    (mode : String) :
    (mode ∉ (["greedy", "or-tools", "hybrid"] : List String) →
      run_planner dist outcome mode cfg orders stockyards rakes =
        .error (.valueError ("Unknown planner mode: " ++ mode))) ∧
    (∀ r, ORToolsPlanner.plan cfg dist outcome orders stockyards rakes = .ok r →
      run_planner dist outcome "or-tools" cfg orders stockyards rakes = .ok r) ∧
    (ORToolsPlanner.plan cfg dist outcome orders stockyards rakes = .error () →
      run_planner dist outcome "or-tools" cfg orders stockyards rakes =
        .error .raised) := by
  refine ⟨fun hmode => ?_, fun r hr => ?_, fun hr => ?_⟩
  · have h1 : ¬(mode = "greedy") := fun h => hmode (by simp [h])
    have h2 : ¬(mode = "or-tools") := fun h => hmode (by simp [h])
    have h3 : ¬(mode = "hybrid") := fun h => hmode (by simp [h])
    rw [run_planner, if_neg h1, if_neg h2, if_neg h3]
  · rw [run_planner]
    simp only [reduceIte, String.reduceEq]
    rw [hr]
  · rw [run_planner]
    simp only [reduceIte, String.reduceEq]
    rw [hr]

/-- Witness for C3 (amended): the unknown mode `"foo"` raises, and on a small
instance the `"or-tools"` mode returns the CP-SAT path's result. -/
theorem run_planner_modes_witness :
    run_planner (fun _ _ => 0) SolverOutcome.noSolution "foo" {} [] [] [] =
      .error (.valueError "Unknown planner mode: foo") ∧
    run_planner (fun _ _ => 0) SolverOutcome.noSolution "or-tools" {} [] [] [] =
      .ok { GreedyPlanner.plan {} (fun _ _ => 0) [] [] [] with
            algorithm := "or-tools (no solution, greedy fallback)" } := by
  constructor
  · exact (run_planner_modes (fun _ _ => 0) SolverOutcome.noSolution {} [] [] []
      "foo").1 (by decide)
  · exact (run_planner_modes (fun _ _ => 0) SolverOutcome.noSolution {} [] [] []
      "or-tools").2.1 _ rfl

/-- C6: in hybrid mode the dispatcher runs the greedy packer, attempts the
CP-SAT packer, and returns the strictly cheaper CP-SAT result tagged
"hybrid (or-tools better)", otherwise the greedy result tagged
"hybrid (greedy better)"; if the CP-SAT packer throws, the greedy result is
returned with the tag "hybrid (greedy only)" — which contains "greedy only". -/
theorem hybrid_dispatch (dist : Dist) (outcome : SolverOutcome) (cfg : Config)
    (orders : List Order) (stockyards : List Stockyard) (rakes : List Rake) :
    (ORToolsPlanner.plan cfg dist outcome orders stockyards rakes = .error () →
      run_planner dist outcome "hybrid" cfg orders stockyards rakes =
        .ok { GreedyPlanner.plan cfg dist orders stockyards rakes with
              algorithm := "hybrid (" ++ "greedy only" ++ ")" }) ∧
    (∀ o, ORToolsPlanner.plan cfg dist outcome orders stockyards rakes = .ok o →
      o.total_cost < (GreedyPlanner.plan cfg dist orders stockyards rakes).total_cost →
      run_planner dist outcome "hybrid" cfg orders stockyards rakes =
        .ok { o with algorithm := "hybrid (or-tools better)" }) ∧
    (∀ o, ORToolsPlanner.plan cfg dist outcome orders stockyards rakes = .ok o →
      ¬ o.total_cost < (GreedyPlanner.plan cfg dist orders stockyards rakes).total_cost →
      run_planner dist outcome "hybrid" cfg orders stockyards rakes =
        .ok { GreedyPlanner.plan cfg dist orders stockyards rakes with
              algorithm := "hybrid (greedy better)" }) := by
  refine ⟨fun hr => ?_, fun o ho hlt => ?_, fun o ho hlt => ?_⟩
  · rw [run_planner]
    simp only [reduceIte, String.reduceEq]
    rw [hr]
    rfl
  · rw [run_planner]
    simp only [reduceIte, String.reduceEq]
    rw [ho]
    simp only [if_pos hlt]
  · rw [run_planner]
    simp only [reduceIte, String.reduceEq]
    rw [ho]
    simp only [if_neg hlt]

/-- Witness for C6: with the solver call raising on a small instance, hybrid
mode returns the greedy result tagged "hybrid (greedy only)". -/
theorem hybrid_dispatch_witness :
    run_planner (fun _ _ => 0) SolverOutcome.raises "hybrid" {} [] [] [] =
      .ok { GreedyPlanner.plan {} (fun _ _ => 0) [] [] [] with
            algorithm := "hybrid (" ++ "greedy only" ++ ")" } :=
  (hybrid_dispatch (fun _ _ => 0) SolverOutcome.raises {} [] [] []).1 rfl

/-- C4 counterexample: a job whose planner call raises terminates with status
failed and progress 40, and cancelling a running job at progress 40 leaves
progress 40 — terminal status does not imply progress 100. -/
theorem job_progress_cex :
    (execute_planning_job 0 RunOutcome.plannerRaises ⟨"queued", 0, [], none, none⟩).status =
      "failed" ∧
    (execute_planning_job 0 RunOutcome.plannerRaises ⟨"queued", 0, [], none, none⟩).progress =
      40 ∧
    cancel_job 0 ⟨"running", 40, [], some 0, none⟩ =
      .ok ⟨"cancelled", 40, ["Job cancelled by user"], some 0, some 0⟩ := by
  refine ⟨rfl, rfl, rfl⟩

/-- C4 (amended): a job completing successfully ends with status completed and
progress 100, and among the committed states of a run started at progress 0,
progress 100 occurs only with status completed; but a job ending via the
failure path keeps the progress of its last checkpoint (40, the planner call
being the raise point) with status failed, and a cancelled job keeps its
current progress — so a terminal status does not imply progress 100. -/
theorem job_progress_spec (now : ℕ) (j : Job) (outcome : RunOutcome) :
    ((execute_planning_job now RunOutcome.success j).status = "completed" ∧
     (execute_planning_job now RunOutcome.success j).progress = 100) ∧
    ((execute_planning_job now RunOutcome.plannerRaises j).status = "failed" ∧
     (execute_planning_job now RunOutcome.plannerRaises j).progress = 40) ∧
    (∀ j', cancel_job now j = .ok j' →
      j'.status = "cancelled" ∧ j'.progress = j.progress) ∧
    (j.progress = 0 → ∀ s ∈ executeTrace now outcome j,
      s.progress = 100 → s.status = "completed") := by
  refine ⟨⟨rfl, rfl⟩, ⟨rfl, rfl⟩, fun j' hj' => ?_, fun h0 s hs hp => ?_⟩
  · rw [cancel_job] at hj'
    by_cases hterm : j.status ∈ ["completed", "failed", "cancelled"]
    · rw [if_pos hterm] at hj'
      exact absurd hj' (by simp)
    · rw [if_neg hterm] at hj'
      have := Except.ok.inj hj'
      rw [← this]
      exact ⟨rfl, rfl⟩
  · cases outcome with
    | success =>
      simp only [executeTrace, List.mem_cons, List.not_mem_nil, or_false] at hs
      rcases hs with rfl | rfl | rfl | rfl | rfl
      · exact absurd hp (by simp [jobStart, h0])
      · exact absurd hp (by simp [jobLoaded, jobStart])
      · exact absurd hp (by simp [jobRunningPlanner, jobLoaded, jobStart])
      · exact absurd hp (by
          simp [jobPlanned, jobRunningPlanner, jobLoaded, jobStart])
      · rfl
    | plannerRaises =>
      simp only [executeTrace, List.mem_cons, List.not_mem_nil, or_false] at hs
      rcases hs with rfl | rfl | rfl | rfl
      · exact absurd hp (by simp [jobStart, h0])
      · exact absurd hp (by simp [jobLoaded, jobStart])
      · exact absurd hp (by simp [jobRunningPlanner, jobLoaded, jobStart])
      · exact absurd hp (by
          simp [jobFail, jobRunningPlanner, jobLoaded, jobStart])

/-- Witness for C4 (amended): cancelling a concrete running job at progress 40
yields a cancelled job still at progress 40. -/
theorem job_progress_spec_witness :
    ∃ j', cancel_job 0 ⟨"running", 40, [], some 0, none⟩ = Except.ok j' ∧
      j'.status = "cancelled" ∧ j'.progress = 40 := by
  refine ⟨⟨"cancelled", 40, ["Job cancelled by user"], some 0, some 0⟩, rfl, ?_⟩
  exact (job_progress_spec 0 ⟨"running", 40, [], some 0, none⟩ RunOutcome.success).2.2.1
    ⟨"cancelled", 40, ["Job cancelled by user"], some 0, some 0⟩ rfl

section CommitHelpers

lemma map_rakeNum_setFirst (num : String) (rs : List RakeRow) :
    (setFirstRakeAssigned num rs).map (·.rake_number) = rs.map (·.rake_number) := by
  induction rs with
  | nil => rfl
  | cons h t ih =>
    rw [setFirstRakeAssigned]
    split
    · rfl
    · simp only [List.map_cons, ih]

lemma mem_setFirstRake_ne (num : String) (r : RakeRow) (rs : List RakeRow)
    (hr : r ∈ rs) (hne : r.rake_number ≠ num) : r ∈ setFirstRakeAssigned num rs := by
  induction rs with
  | nil => cases hr
  | cons h t ih =>
    rw [setFirstRakeAssigned]
    by_cases hh : h.rake_number = num
    · rw [if_pos hh]
      rcases List.mem_cons.mp hr with rfl | hrt
      · exact absurd hh hne
      · exact List.mem_cons.mpr (Or.inr hrt)
    · rw [if_neg hh]
      rcases List.mem_cons.mp hr with rfl | hrt
      · exact List.mem_cons_self _ _
      · exact List.mem_cons.mpr (Or.inr (ih hrt))

lemma mem_setFirstRake_self (rs : List RakeRow)
    (hnd : (rs.map (·.rake_number)).Nodup) (r : RakeRow) (hr : r ∈ rs) :
    { r with status := "assigned" } ∈ setFirstRakeAssigned r.rake_number rs := by
  induction rs with
  | nil => cases hr
  | cons h t ih =>
    simp only [List.map_cons, List.nodup_cons] at hnd
    rw [setFirstRakeAssigned]
    by_cases hh : h.rake_number = r.rake_number
    · rw [if_pos hh]
      rcases List.mem_cons.mp hr with rfl | hrt
      · exact List.mem_cons_self _ _
      · exfalso
        exact hnd.1 (hh ▸ List.mem_map_of_mem (·.rake_number) hrt)
    · rw [if_neg hh]
      rcases List.mem_cons.mp hr with rfl | hrt
      · exact absurd rfl hh
      · exact List.mem_cons.mpr (Or.inr (ih hnd.2 hrt))

lemma fold_setFirstRake (ks : List String) : ∀ (rs : List RakeRow),
    (rs.map (·.rake_number)).Nodup → ∀ r ∈ rs,
    (r.rake_number ∈ ks →
      { r with status := "assigned" } ∈
        ks.foldl (fun a k => setFirstRakeAssigned k a) rs) ∧
    (r.rake_number ∉ ks →
      r ∈ ks.foldl (fun a k => setFirstRakeAssigned k a) rs) := by
  induction ks with
  | nil =>
    intro rs _ r hr
    exact ⟨fun h => absurd h (List.not_mem_nil _), fun _ => hr⟩
  | cons k ks ih =>
    intro rs hnd r hr
    have hnd' : ((setFirstRakeAssigned k rs).map (·.rake_number)).Nodup := by
      rw [map_rakeNum_setFirst]; exact hnd
    by_cases hk : r.rake_number = k
    · have hrA : { r with status := "assigned" } ∈ setFirstRakeAssigned k rs :=
        hk ▸ mem_setFirstRake_self rs hnd r hr
      have ihr := ih (setFirstRakeAssigned k rs) hnd'
        { r with status := "assigned" } hrA
      constructor
      · intro _
        by_cases hks : ({ r with status := "assigned" } : RakeRow).rake_number ∈ ks
        · exact ihr.1 hks
        · exact ihr.2 hks
      · intro habs
        exact absurd (List.mem_cons.mpr (Or.inl hk)) habs
    · have hr' : r ∈ setFirstRakeAssigned k rs := mem_setFirstRake_ne k r rs hr hk
      have ihr := ih (setFirstRakeAssigned k rs) hnd' r hr'
      constructor
      · intro hmem
        rcases List.mem_cons.mp hmem with h | h
        · exact absurd h hk
        · exact ihr.1 h
      · intro hnmem
        exact ihr.2 (fun h => hnmem (List.mem_cons.mpr (Or.inr h)))

lemma map_id_setFirstOrder (oid : String) (os : List OrderRow) :
    (setFirstOrderAssigned oid os).map (·.id) = os.map (·.id) := by
  induction os with
  | nil => rfl
  | cons h t ih =>
    rw [setFirstOrderAssigned]
    split
    · rfl
    · simp only [List.map_cons, ih]

lemma mem_setFirstOrder_ne (oid : String) (o : OrderRow) (os : List OrderRow)
    (ho : o ∈ os) (hne : o.id ≠ oid) : o ∈ setFirstOrderAssigned oid os := by
  induction os with
  | nil => cases ho
  | cons h t ih =>
    rw [setFirstOrderAssigned]
    by_cases hh : h.id = oid
    · rw [if_pos hh]
      rcases List.mem_cons.mp ho with rfl | hot
      · exact absurd hh hne
      · exact List.mem_cons.mpr (Or.inr hot)
    · rw [if_neg hh]
      rcases List.mem_cons.mp ho with rfl | hot
      · exact List.mem_cons_self _ _
      · exact List.mem_cons.mpr (Or.inr (ih hot))

lemma mem_setFirstOrder_self (os : List OrderRow)
    (hnd : (os.map (·.id)).Nodup) (o : OrderRow) (ho : o ∈ os) :
    { o with status := "assigned" } ∈ setFirstOrderAssigned o.id os := by
  induction os with
  | nil => cases ho
  | cons h t ih =>
    simp only [List.map_cons, List.nodup_cons] at hnd
    rw [setFirstOrderAssigned]
    by_cases hh : h.id = o.id
    · rw [if_pos hh]
      rcases List.mem_cons.mp ho with rfl | hot
      · exact List.mem_cons_self _ _
      · exfalso
        exact hnd.1 (hh ▸ List.mem_map_of_mem (·.id) hot)
    · rw [if_neg hh]
      rcases List.mem_cons.mp ho with rfl | hot
      · exact absurd rfl hh
      · exact List.mem_cons.mpr (Or.inr (ih hnd.2 hot))

lemma fold_setFirstOrder (ks : List String) : ∀ (os : List OrderRow),
    (os.map (·.id)).Nodup → ∀ o ∈ os,
    (o.id ∈ ks →
      { o with status := "assigned" } ∈
        ks.foldl (fun a k => setFirstOrderAssigned k a) os) ∧
    (o.id ∉ ks →
      o ∈ ks.foldl (fun a k => setFirstOrderAssigned k a) os) := by
  induction ks with
  | nil =>
    intro os _ o ho
    exact ⟨fun h => absurd h (List.not_mem_nil _), fun _ => ho⟩
  | cons k ks ih =>
    intro os hnd o ho
    have hnd' : ((setFirstOrderAssigned k os).map (·.id)).Nodup := by
      rw [map_id_setFirstOrder]; exact hnd
    by_cases hk : o.id = k
    · have hoA : { o with status := "assigned" } ∈ setFirstOrderAssigned k os :=
        hk ▸ mem_setFirstOrder_self os hnd o ho
      have iho := ih (setFirstOrderAssigned k os) hnd'
        { o with status := "assigned" } hoA
      constructor
      · intro _
        by_cases hks : ({ o with status := "assigned" } : OrderRow).id ∈ ks
        · exact iho.1 hks
        · exact iho.2 hks
      · intro habs
        exact absurd (List.mem_cons.mpr (Or.inl hk)) habs
    · have ho' : o ∈ setFirstOrderAssigned k os := mem_setFirstOrder_ne k o os ho hk
      have iho := ih (setFirstOrderAssigned k os) hnd' o ho'
      constructor
      · intro hmem
        rcases List.mem_cons.mp hmem with h | h
        · exact absurd h hk
        · exact iho.1 h
      · intro hnmem
        exact iho.2 (fun h => hnmem (List.mem_cons.mpr (Or.inr h)))

lemma nested_order_foldl (prs : List PlanRakeRow) : ∀ (os : List OrderRow),
    prs.foldl
      (fun a pr => pr.orders_assigned.foldl (fun b oid => setFirstOrderAssigned oid b) a)
      os =
    (prs.flatMap (·.orders_assigned)).foldl (fun a oid => setFirstOrderAssigned oid a) os := by
  induction prs with
  | nil => intro os; rfl
  | cons pr rest ih =>
    intro os
    rw [List.foldl_cons, ih, List.flatMap_cons, List.foldl_append]

lemma find?_setPlanCommitted (pid : String) (now : ℕ) (plans : List PlanRow)
    (p : PlanRow) (h : plans.find? (fun q => q.id == pid) = some p) :
    (setPlanCommitted pid now plans).find? (fun q => q.id == pid) =
      some { p with committed := true, committed_at := some now } := by
  induction plans with
  | nil => simp [List.find?] at h
  | cons q rest ih =>
    by_cases hq : q.id = pid
    · have hbeq : (q.id == pid) = true := beq_iff_eq.mpr hq
      rw [List.find?_cons_of_pos rest hbeq] at h
      have hqp : q = p := Option.some.inj h
      rw [setPlanCommitted, if_pos hq, ← hqp]
      exact List.find?_cons_of_pos rest hbeq
    · have hbeq : ¬((q.id == pid) = true) := by simp [hq]
      rw [List.find?_cons_of_neg rest hbeq] at h
      rw [setPlanCommitted, if_neg hq]
      rw [@List.find?_cons_of_neg _ (fun q => q.id == pid) q
        (setPlanCommitted pid now rest) hbeq]
      exact ih h

end CommitHelpers

/-- C5: committing the same plan twice: given a plan row that exists and is not
yet committed (and database uniqueness of rake numbers and order ids), the
first call succeeds, marks the plan committed with the commit timestamp, flips
every rake row referenced by one of the plan's PlanRakes and every order row
referenced by an assigned-order record to status assigned (leaving unreferenced
rows untouched); the second call fails with the precondition error
"Plan already committed" and returns the database unchanged. -/
theorem commit_plan_twice (now now' : ℕ) (plan_id : String) (db : DB) (p : PlanRow)
    (hfind : db.plans.find? (fun q => q.id == plan_id) = some p)
    (hnc : p.committed = false)
    (hrn : (db.rakes.map (·.rake_number)).Nodup)
    (hoid : (db.orders.map (·.id)).Nodup) :
    ((commit_plan now plan_id db).2 = .ok "Plan committed successfully") ∧
    ((commit_plan now plan_id db).1.plans.find? (fun q => q.id == plan_id) =
      some { p with committed := true, committed_at := some now }) ∧
    (∀ r ∈ db.rakes,
      ((∃ pr ∈ db.plan_rakes, pr.plan_id = plan_id ∧ pr.rake_number = r.rake_number) →
        { r with status := "assigned" } ∈ (commit_plan now plan_id db).1.rakes) ∧
      ((¬∃ pr ∈ db.plan_rakes, pr.plan_id = plan_id ∧ pr.rake_number = r.rake_number) →
        r ∈ (commit_plan now plan_id db).1.rakes)) ∧
    (∀ o ∈ db.orders,
      ((∃ pr ∈ db.plan_rakes, pr.plan_id = plan_id ∧ o.id ∈ pr.orders_assigned) →
        { o with status := "assigned" } ∈ (commit_plan now plan_id db).1.orders) ∧
      ((¬∃ pr ∈ db.plan_rakes, pr.plan_id = plan_id ∧ o.id ∈ pr.orders_assigned) →
        o ∈ (commit_plan now plan_id db).1.orders)) ∧
    (commit_plan now' plan_id (commit_plan now plan_id db).1 =
      ((commit_plan now plan_id db).1, .error "Plan already committed")) := by
  have hrun : commit_plan now plan_id db =
      ({ plans := setPlanCommitted plan_id now db.plans
         plan_rakes := db.plan_rakes
         rakes := (db.plan_rakes.filter (fun pr => pr.plan_id == plan_id)).foldl
           (fun rs pr => setFirstRakeAssigned pr.rake_number rs) db.rakes
         orders := (db.plan_rakes.filter (fun pr => pr.plan_id == plan_id)).foldl
           (fun os pr => pr.orders_assigned.foldl
             (fun os2 oid => setFirstOrderAssigned oid os2) os) db.orders },
       .ok "Plan committed successfully") := by
    unfold commit_plan
    rw [hfind]
    dsimp only
    rw [hnc]
    rw [if_neg Bool.false_ne_true]
  have hrefkeys :
      ∀ r : RakeRow, (r.rake_number ∈
        (db.plan_rakes.filter (fun pr => pr.plan_id == plan_id)).map (·.rake_number)) ↔
        (∃ pr ∈ db.plan_rakes, pr.plan_id = plan_id ∧ pr.rake_number = r.rake_number) := by
    intro r
    simp only [List.mem_map, List.mem_filter, beq_iff_eq]
    constructor
    · rintro ⟨pr, ⟨hm, hpid⟩, hnum⟩
      exact ⟨pr, hm, hpid, hnum⟩
    · rintro ⟨pr, hm, hpid, hnum⟩
      exact ⟨pr, ⟨hm, hpid⟩, hnum⟩
  have hordkeys :
      ∀ o : OrderRow, (o.id ∈
        ((db.plan_rakes.filter (fun pr => pr.plan_id == plan_id)).flatMap
          (·.orders_assigned)) ↔
        ∃ pr ∈ db.plan_rakes, pr.plan_id = plan_id ∧ o.id ∈ pr.orders_assigned) := by
    intro o
    simp only [List.mem_flatMap, List.mem_filter, beq_iff_eq]
    constructor
    · rintro ⟨pr, ⟨hm, hpid⟩, hin⟩
      exact ⟨pr, hm, hpid, hin⟩
    · rintro ⟨pr, hm, hpid, hin⟩
      exact ⟨pr, ⟨hm, hpid⟩, hin⟩
  refine ⟨by rw [hrun], ?_, ?_, ?_, ?_⟩
  · rw [hrun]
    exact find?_setPlanCommitted plan_id now db.plans p hfind
  · intro r hr
    have hfold := fold_setFirstRake
      ((db.plan_rakes.filter (fun pr => pr.plan_id == plan_id)).map (·.rake_number))
      db.rakes hrn r hr
    rw [List.foldl_map] at hfold
    constructor
    · intro hex
      rw [hrun]
      exact hfold.1 ((hrefkeys r).mpr hex)
    · intro hnex
      rw [hrun]
      exact hfold.2 (fun hmem => hnex ((hrefkeys r).mp hmem))
  · intro o ho
    have hfold := fold_setFirstOrder
      ((db.plan_rakes.filter (fun pr => pr.plan_id == plan_id)).flatMap (·.orders_assigned))
      db.orders hoid o ho
    constructor
    · intro hex
      rw [hrun]
      show _ ∈ (db.plan_rakes.filter (fun pr => pr.plan_id == plan_id)).foldl
        (fun os pr => pr.orders_assigned.foldl
          (fun os2 oid => setFirstOrderAssigned oid os2) os) db.orders
      rw [nested_order_foldl]
      exact hfold.1 ((hordkeys o).mpr hex)
    · intro hnex
      rw [hrun]
      show _ ∈ (db.plan_rakes.filter (fun pr => pr.plan_id == plan_id)).foldl
        (fun os pr => pr.orders_assigned.foldl
          (fun os2 oid => setFirstOrderAssigned oid os2) os) db.orders
      rw [nested_order_foldl]
      exact hfold.2 (fun hmem => hnex ((hordkeys o).mp hmem))
  · rw [hrun]
    dsimp only
    unfold commit_plan
    rw [find?_setPlanCommitted plan_id now db.plans p hfind]
    dsimp only
    rw [if_pos rfl]

/-- Witness for C5: a one-plan, one-rake, one-order database goes through the
commit, the flips are observable, and the second commit is rejected. -/
theorem commit_plan_twice_witness :
    ((commit_plan 7 "P1" ⟨[⟨"P1", false, none⟩], [⟨"P1", "RK1", ["o1"]⟩],
        [⟨"RK1", "available"⟩], [⟨"o1", "pending"⟩]⟩).2 =
      .ok "Plan committed successfully") ∧
    ((⟨"RK1", "assigned"⟩ : RakeRow) ∈
      (commit_plan 7 "P1" ⟨[⟨"P1", false, none⟩], [⟨"P1", "RK1", ["o1"]⟩],
        [⟨"RK1", "available"⟩], [⟨"o1", "pending"⟩]⟩).1.rakes) ∧
    ((⟨"o1", "assigned"⟩ : OrderRow) ∈
      (commit_plan 7 "P1" ⟨[⟨"P1", false, none⟩], [⟨"P1", "RK1", ["o1"]⟩],
        [⟨"RK1", "available"⟩], [⟨"o1", "pending"⟩]⟩).1.orders) ∧
    (commit_plan 8 "P1" (commit_plan 7 "P1" ⟨[⟨"P1", false, none⟩],
        [⟨"P1", "RK1", ["o1"]⟩], [⟨"RK1", "available"⟩], [⟨"o1", "pending"⟩]⟩).1 =
      ((commit_plan 7 "P1" ⟨[⟨"P1", false, none⟩], [⟨"P1", "RK1", ["o1"]⟩],
        [⟨"RK1", "available"⟩], [⟨"o1", "pending"⟩]⟩).1,
       .error "Plan already committed")) := by
  have h := commit_plan_twice 7 8 "P1"
    ⟨[⟨"P1", false, none⟩], [⟨"P1", "RK1", ["o1"]⟩],
     [⟨"RK1", "available"⟩], [⟨"o1", "pending"⟩]⟩
    ⟨"P1", false, none⟩ rfl rfl (by decide) (by decide)
  refine ⟨h.1, ?_, ?_, h.2.2.2.2⟩
  · exact (h.2.2.1 ⟨"RK1", "available"⟩ (by decide)).1
      ⟨⟨"P1", "RK1", ["o1"]⟩, by decide, rfl, rfl⟩
  · exact (h.2.2.2.1 ⟨"o1", "pending"⟩ (by decide)).1
      ⟨⟨"P1", "RK1", ["o1"]⟩, by decide, rfl, by decide⟩

section InventoryHelpers

lemma invLE_refl (inv : Inventory) : invLE inv inv :=
  fun _ _ => ⟨Iff.rfl, le_refl _⟩

lemma invLE_trans {inv3 inv2 inv1 : Inventory}
    (h32 : invLE inv3 inv2) (h21 : invLE inv2 inv1) : invLE inv3 inv1 :=
  fun c p => ⟨(h32 c p).1.trans (h21 c p).1, le_trans (h32 c p).2 (h21 c p).2⟩

lemma lookup_cons_eq {B : Type} (k pr : String) (q : B) (t : List (String × B))
    (h : k = pr) : List.lookup pr ((k, q) :: t) = some q := by
  rw [List.lookup_cons, show (pr == k) = true from beq_iff_eq.mpr h.symm]

lemma lookup_cons_ne {B : Type} (k pr : String) (q : B) (t : List (String × B))
    (h : ¬(k = pr)) : List.lookup pr ((k, q) :: t) = List.lookup pr t := by
  rw [List.lookup_cons, show (pr == k) = false from by
    simp only [beq_eq_false_iff_ne, ne_eq]
    exact fun he => h he.symm]

lemma lookup_bucketSet_self (pr : String) (v : ℚ) (b : ProductInv)
    (h : (b.lookup pr).isSome = true) : (bucketSet pr v b).lookup pr = some v := by
  induction b with
  | nil => simp [List.lookup] at h
  | cons kv t ih =>
    obtain ⟨k, q⟩ := kv
    by_cases hk : k = pr
    · rw [bucketSet, if_pos hk]
      exact lookup_cons_eq k pr v _ hk
    · rw [bucketSet, if_neg hk]
      rw [lookup_cons_ne k pr q t hk] at h
      rw [lookup_cons_ne k pr q _ hk]
      exact ih h

lemma lookup_bucketSet_none (pr : String) (v : ℚ) (b : ProductInv)
    (h : b.lookup pr = none) : (bucketSet pr v b).lookup pr = none := by
  induction b with
  | nil => rfl
  | cons kv t ih =>
    obtain ⟨k, q⟩ := kv
    by_cases hk : k = pr
    · rw [lookup_cons_eq k pr q t hk] at h
      exact absurd h (by simp)
    · rw [bucketSet, if_neg hk]
      rw [lookup_cons_ne k pr q t hk] at h
      rw [lookup_cons_ne k pr q _ hk]
      exact ih h

lemma lookup_bucketSet_other (pr : String) (v : ℚ) (b : ProductInv) (pr' : String)
    (h : pr' ≠ pr) : (bucketSet pr v b).lookup pr' = b.lookup pr' := by
  induction b with
  | nil => rfl
  | cons kv t ih =>
    obtain ⟨k, q⟩ := kv
    by_cases hk : k = pr
    · rw [bucketSet, if_pos hk]
      rw [lookup_cons_ne k pr' v t (fun he => h (he ▸ hk)),
        lookup_cons_ne k pr' q t (fun he => h (he ▸ hk))]
    · rw [bucketSet, if_neg hk]
      by_cases hk' : k = pr'
      · rw [lookup_cons_eq k pr' q _ hk', lookup_cons_eq k pr' q t hk']
      · rw [lookup_cons_ne k pr' q _ hk', lookup_cons_ne k pr' q t hk']
        exact ih

lemma lookup_invSet_eq (c pr : String) (v : ℚ) (inv : Inventory) :
    (invSet c pr v inv).lookup c =
      match inv.lookup c with
      | none => none
      | some b => some (bucketSet pr v b) := by
  induction inv with
  | nil => rfl
  | cons kv t ih =>
    obtain ⟨c0, b0⟩ := kv
    by_cases hc : c0 = c
    · rw [invSet, if_pos hc]
      rw [lookup_cons_eq c0 c (bucketSet pr v b0) t hc, lookup_cons_eq c0 c b0 t hc]
    · rw [invSet, if_neg hc]
      rw [lookup_cons_ne c0 c b0 _ hc, lookup_cons_ne c0 c b0 t hc]
      exact ih

lemma lookup_invSet_other (c pr : String) (v : ℚ) (inv : Inventory) (c' : String)
    (h : c' ≠ c) : (invSet c pr v inv).lookup c' = inv.lookup c' := by
  induction inv with
  | nil => rfl
  | cons kv t ih =>
    obtain ⟨c0, b0⟩ := kv
    by_cases hc : c0 = c
    · rw [invSet, if_pos hc]
      rw [lookup_cons_ne c0 c' (bucketSet pr v b0) t (fun he => h (he ▸ hc)),
        lookup_cons_ne c0 c' b0 t (fun he => h (he ▸ hc))]
    · rw [invSet, if_neg hc]
      by_cases hc' : c0 = c'
      · rw [lookup_cons_eq c0 c' b0 _ hc', lookup_cons_eq c0 c' b0 t hc']
      · rw [lookup_cons_ne c0 c' b0 _ hc', lookup_cons_ne c0 c' b0 t hc']
        exact ih

lemma invGet_invSet_self (c pr : String) (v : ℚ) (inv : Inventory)
    (h : (invGet inv c pr).isSome = true) :
    invGet (invSet c pr v inv) c pr = some v := by
  rw [invGet] at h ⊢
  rw [lookup_invSet_eq]
  cases hb : inv.lookup c with
  | none => rw [hb] at h; simp at h
  | some b =>
    rw [hb] at h
    exact lookup_bucketSet_self pr v b h

lemma invGet_invSet_other (c pr : String) (v : ℚ) (inv : Inventory)
    (c' pr' : String) (h : ¬(c' = c ∧ pr' = pr)) :
    invGet (invSet c pr v inv) c' pr' = invGet inv c' pr' := by
  rw [invGet, invGet]
  by_cases hc : c' = c
  · have hpr : pr' ≠ pr := fun he => h ⟨hc, he⟩
    rw [hc, lookup_invSet_eq]
    cases hb : inv.lookup c with
    | none => rfl
    | some b => exact lookup_bucketSet_other pr v b pr' hpr
  · rw [lookup_invSet_other c pr v inv c' hc]

lemma invLE_invSet_dec (c pr : String) (inv : Inventory) (a w : ℚ)
    (h : invGet inv c pr = some a) (hw : 0 ≤ w) :
    invLE (invSet c pr (a - w) inv) inv := by
  intro c' pr'
  by_cases hcp : c' = c ∧ pr' = pr
  · obtain ⟨rfl, rfl⟩ := hcp
    rw [invGetD, invGetD, invGet_invSet_self c' pr' (a - w) inv (by rw [h]; rfl), h]
    constructor
    · simp
    · simpa using sub_le_self a hw
  · rw [invGetD, invGetD, invGet_invSet_other c pr (a - w) inv c' pr' hcp]
    exact ⟨Iff.rfl, le_refl _⟩

end InventoryHelpers


section PackHelpers

lemma pack_try_add_packInv (cfg : Config) (dist : Dist) (st : PackState) (o : Order)
    (sy : Stockyard) (cap : ℚ) (h : packInv cap st)
    (hcap : st.current_weight + o.quantity_tonnes ≤ cap) :
    packInv cap (pack_try_add cfg dist st o sy) := by
  dsimp only [pack_try_add]
  split
  · exact h
  · split
    · exact h
    · constructor
      · simp only [List.map_append, List.sum_append, List.map_cons, List.map_nil,
          List.sum_cons, List.sum_nil, add_zero]
        rw [h.1]
      · exact Or.inr hcap

lemma pack_try_add_invLE (cfg : Config) (dist : Dist) (st : PackState) (o : Order)
    (sy : Stockyard) (hw : 0 ≤ o.quantity_tonnes) :
    invLE (pack_try_add cfg dist st o sy).inventory st.inventory := by
  dsimp only [pack_try_add]
  split
  · exact invLE_refl _
  · rename_i available hmatch
    split
    · exact invLE_refl _
    · exact invLE_invSet_dec sy.code o.product_code st.inventory available
        o.quantity_tonnes hmatch hw

lemma pack_step_packInv (cfg : Config) (dist : Dist) (cap : ℚ)
    (assigned : Finset String) (stockyards : List Stockyard)
    (st : PackState) (o : Order) (h : packInv cap st) :
    packInv cap (pack_step cfg dist cap assigned stockyards st o) := by
  dsimp only [pack_step]
  split
  · exact h
  · split
    · exact h
    · rename_i hcap
      split
      · exact h
      · split
        · exact h
        · rename_i sy hsel
          split
          · split
            · exact h
            · exact pack_try_add_packInv cfg dist st o sy cap h (not_lt.mp hcap)
          · exact pack_try_add_packInv cfg dist
              { st with origin_stockyard := some sy } o sy cap h (not_lt.mp hcap)

lemma pack_step_invLE (cfg : Config) (dist : Dist) (cap : ℚ)
    (assigned : Finset String) (stockyards : List Stockyard)
    (st : PackState) (o : Order) (hw : 0 ≤ o.quantity_tonnes) :
    invLE (pack_step cfg dist cap assigned stockyards st o).inventory st.inventory := by
  dsimp only [pack_step]
  split
  · exact invLE_refl _
  · split
    · exact invLE_refl _
    · split
      · exact invLE_refl _
      · split
        · exact invLE_refl _
        · rename_i sy hsel
          split
          · split
            · exact invLE_refl _
            · exact pack_try_add_invLE cfg dist st o sy hw
          · exact pack_try_add_invLE cfg dist
              { st with origin_stockyard := some sy } o sy hw

lemma foldl_pack_packInv (cfg : Config) (dist : Dist) (cap : ℚ)
    (assigned : Finset String) (stockyards : List Stockyard) (orders : List Order) :
    ∀ st, packInv cap st →
      packInv cap (orders.foldl (pack_step cfg dist cap assigned stockyards) st) := by
  induction orders with
  | nil => intro st h; exact h
  | cons o rest ih =>
    intro st h
    exact ih _ (pack_step_packInv cfg dist cap assigned stockyards st o h)

lemma foldl_pack_invLE (cfg : Config) (dist : Dist) (cap : ℚ)
    (assigned : Finset String) (stockyards : List Stockyard) (orders : List Order)
    (hw : ∀ o ∈ orders, 0 ≤ o.quantity_tonnes) :
    ∀ st, invLE
      (orders.foldl (pack_step cfg dist cap assigned stockyards) st).inventory
      st.inventory := by
  induction orders with
  | nil => intro st; exact invLE_refl _
  | cons o rest ih =>
    intro st
    exact invLE_trans
      (ih (fun o ho => hw o (List.mem_cons.mpr (Or.inr ho))) _)
      (pack_step_invLE cfg dist cap assigned stockyards st o
        (hw o (List.mem_cons_self o rest)))

lemma pack_rake_some (cfg : Config) (dist : Dist) (rake : Rake) (orders : List Order)
    (assigned : Finset String) (stockyards : List Stockyard) (inventory : Inventory)
    (rp : RakePlan)
    (h : (pack_rake cfg dist rake orders assigned stockyards inventory).1 = some rp) :
    rp.total_weight = (rp.orders.map (·.quantity)).sum ∧
    rp.total_weight ≤ rp.capacity ∧ rp.capacity = rake.total_capacity_tonnes := by
  have hfin := foldl_pack_packInv cfg dist rake.total_capacity_tonnes assigned
    stockyards orders ⟨0, [], [], none, 0, inventory⟩ ⟨by simp, Or.inl rfl⟩
  dsimp only [pack_rake] at h
  split at h
  · exact absurd h (by simp)
  · rename_i hne
    have hrp := Option.some.inj h
    rw [← hrp]
    refine ⟨hfin.1, ?_, rfl⟩
    rcases hfin.2 with hnil | hle
    · exact absurd (by rw [hnil]; rfl) hne
    · exact hle

lemma pack_rake_invLE (cfg : Config) (dist : Dist) (rake : Rake) (orders : List Order)
    (assigned : Finset String) (stockyards : List Stockyard) (inventory : Inventory)
    (hw : ∀ o ∈ orders, 0 ≤ o.quantity_tonnes) :
    invLE (pack_rake cfg dist rake orders assigned stockyards inventory).2 inventory := by
  have hsnd : (pack_rake cfg dist rake orders assigned stockyards inventory).2 =
      (orders.foldl (pack_step cfg dist rake.total_capacity_tonnes assigned stockyards)
        ⟨0, [], [], none, 0, inventory⟩).inventory := by
    dsimp only [pack_rake]
    split <;> rfl
  rw [hsnd]
  exact foldl_pack_invLE cfg dist rake.total_capacity_tonnes assigned stockyards
    orders hw _

end PackHelpers

section GreedyHelpers

lemma foldl_insert_union (l : List String) : ∀ s : Finset String,
    l.foldl (fun s i => insert i s) s = s ∪ l.toFinset := by
  induction l with
  | nil => intro s; simp
  | cons a t ih =>
    intro s
    rw [List.foldl_cons, ih (insert a s)]
    ext x
    simp only [Finset.mem_union, Finset.mem_insert, List.toFinset_cons, List.mem_toFinset]
    tauto

lemma foldl_insert_map_union {A : Type} (f : A → String) (l : List A) :
    ∀ s : Finset String,
    l.foldl (fun s o => insert (f o) s) s = s ∪ (l.map f).toFinset := by
  induction l with
  | nil => intro s; simp
  | cons a t ih =>
    intro s
    rw [List.foldl_cons, ih (insert (f a) s)]
    ext x
    simp only [Finset.mem_union, Finset.mem_insert, List.map_cons, List.toFinset_cons,
      List.mem_toFinset]
    tauto

lemma greedy_rake_step_plansOk (cfg : Config) (dist : Dist) (sorted_orders : List Order)
    (stockyards : List Stockyard) (st : GreedyState) (rake : Rake)
    (h : ∀ rp ∈ st.plan_rakes, rakeOk cfg.min_rake_size rp) :
    ∀ rp ∈ (greedy_rake_step cfg dist sorted_orders stockyards st rake).plan_rakes,
      rakeOk cfg.min_rake_size rp := by
  dsimp only [greedy_rake_step]
  split
  · exact h
  · split
    · exact h
    · rename_i rp0 hrp0
      split
      · rename_i hmin
        intro rp hrp
        rcases List.mem_append.mp hrp with hmem | hmem
        · exact h rp hmem
        · have hrpeq : rp = rp0 := by simpa using hmem
          subst hrpeq
          have hpk := pack_rake_some cfg dist rake sorted_orders st.assigned
            stockyards st.inventory rp hrp0
          exact ⟨hpk.1, hpk.2.1, hmin⟩
      · exact h

lemma greedy_rake_step_union (cfg : Config) (dist : Dist) (sorted_orders : List Order)
    (stockyards : List Stockyard) (st : GreedyState) (rake : Rake)
    (h : st.assigned = st.plan_rakes.foldl (fun s rp => s ∪ rp.order_ids.toFinset) ∅) :
    (greedy_rake_step cfg dist sorted_orders stockyards st rake).assigned =
      (greedy_rake_step cfg dist sorted_orders stockyards st rake).plan_rakes.foldl
        (fun s rp => s ∪ rp.order_ids.toFinset) ∅ := by
  dsimp only [greedy_rake_step]
  split
  · exact h
  · split
    · exact h
    · rename_i rp0 hrp0
      split
      · rw [List.foldl_append, List.foldl_cons, List.foldl_nil, ← h,
          foldl_insert_union rp0.order_ids st.assigned]
      · exact h

lemma greedy_rake_step_invLE (cfg : Config) (dist : Dist) (sorted_orders : List Order)
    (stockyards : List Stockyard) (st : GreedyState) (rake : Rake)
    (hw : ∀ o ∈ sorted_orders, 0 ≤ o.quantity_tonnes) :
    invLE (greedy_rake_step cfg dist sorted_orders stockyards st rake).inventory
      st.inventory := by
  have hpk := pack_rake_invLE cfg dist rake sorted_orders st.assigned stockyards
    st.inventory hw
  dsimp only [greedy_rake_step]
  split
  · exact invLE_refl _
  · split
    · exact hpk
    · split
      · exact hpk
      · exact hpk

lemma foldl_greedy_plansOk (cfg : Config) (dist : Dist) (sorted_orders : List Order)
    (stockyards : List Stockyard) (rakes : List Rake) :
    ∀ st, (∀ rp ∈ st.plan_rakes, rakeOk cfg.min_rake_size rp) →
      ∀ rp ∈ (rakes.foldl (greedy_rake_step cfg dist sorted_orders stockyards)
        st).plan_rakes, rakeOk cfg.min_rake_size rp := by
  induction rakes with
  | nil => intro st h; exact h
  | cons rake rest ih =>
    intro st h
    exact ih _ (greedy_rake_step_plansOk cfg dist sorted_orders stockyards st rake h)

lemma foldl_greedy_union (cfg : Config) (dist : Dist) (sorted_orders : List Order)
    (stockyards : List Stockyard) (rakes : List Rake) :
    ∀ st, st.assigned = st.plan_rakes.foldl (fun s rp => s ∪ rp.order_ids.toFinset) ∅ →
      (rakes.foldl (greedy_rake_step cfg dist sorted_orders stockyards) st).assigned =
        (rakes.foldl (greedy_rake_step cfg dist sorted_orders stockyards)
          st).plan_rakes.foldl (fun s rp => s ∪ rp.order_ids.toFinset) ∅ := by
  induction rakes with
  | nil => intro st h; exact h
  | cons rake rest ih =>
    intro st h
    exact ih _ (greedy_rake_step_union cfg dist sorted_orders stockyards st rake h)

lemma foldl_greedy_invLE (cfg : Config) (dist : Dist) (sorted_orders : List Order)
    (stockyards : List Stockyard) (rakes : List Rake)
    (hw : ∀ o ∈ sorted_orders, 0 ≤ o.quantity_tonnes) :
    ∀ st, invLE
      (rakes.foldl (greedy_rake_step cfg dist sorted_orders stockyards) st).inventory
      st.inventory := by
  induction rakes with
  | nil => intro st; exact invLE_refl _
  | cons rake rest ih =>
    intro st
    exact invLE_trans (ih _)
      (greedy_rake_step_invLE cfg dist sorted_orders stockyards st rake hw)

end GreedyHelpers

/-- C9: within one greedy run, the inventory ledger is pointwise non-increasing
at every rake step and across the whole run (assuming nonnegative order
quantities, the data model's `quantity_tonnes > 0`), and tonnage reserved while
packing is never released: on a concrete run whose only pack is discarded for
being under `min_rake_size`, the emitted plan is empty yet the 500 reserved
tonnes stay deducted (5000 → 4500), permanently hiding them from later rakes. -/
theorem inventory_monotone (cfg : Config) (dist : Dist) (orders : List Order)
    (stockyards : List Stockyard) (rakes : List Rake) (st : GreedyState) (rake : Rake)
    (hw : ∀ o ∈ orders, 0 ≤ o.quantity_tonnes) :
    invLE (greedy_rake_step cfg dist (sortOrders orders) stockyards st rake).inventory
      st.inventory ∧
    invLE (GreedyPlanner.planState cfg dist orders stockyards rakes).inventory
      (initInventory stockyards) ∧
    ((GreedyPlanner.planState {} (fun _ _ => 0)
        [{ id := "o1", order_number := "N1", product_code := "COAL",
           quantity_tonnes := 500, destination := "D" }]
        [⟨"id1", "SY1", "S one", none, none, [("COAL", 5000)]⟩]
        [⟨"r1", "RK1", "BOXN", 58, 3480, "available"⟩]).plan_rakes = [] ∧
     invGetD (GreedyPlanner.planState {} (fun _ _ => 0)
        [{ id := "o1", order_number := "N1", product_code := "COAL",
           quantity_tonnes := 500, destination := "D" }]
        [⟨"id1", "SY1", "S one", none, none, [("COAL", 5000)]⟩]
        [⟨"r1", "RK1", "BOXN", 58, 3480, "available"⟩]).inventory "SY1" "COAL" = 4500 ∧
     invGetD (initInventory [⟨"id1", "SY1", "S one", none, none, [("COAL", 5000)]⟩])
       "SY1" "COAL" = 5000) := by
  have hw' : ∀ o ∈ sortOrders orders, 0 ≤ o.quantity_tonnes :=
    fun o ho => hw o ((mem_pySort _ o orders).mp ho)
  refine ⟨greedy_rake_step_invLE cfg dist (sortOrders orders) stockyards st rake hw',
    ?_, ?_, ?_, ?_⟩
  · exact foldl_greedy_invLE cfg dist (sortOrders orders) stockyards
      (rakes.filter (fun r => r.status == "available")) hw' _
  · norm_num [GreedyPlanner.planState, greedy_rake_step, pack_rake, pack_step,
      pack_try_add, select_source_stockyard, selCandidates, sortOrders, pySort,
      pySortInsert, initInventory, invGet, invGetD, invSet, bucketSet, destAdd,
      truthyS, truthyQ, List.lookup, List.foldl, List.filter]
  · norm_num [GreedyPlanner.planState, greedy_rake_step, pack_rake, pack_step,
      pack_try_add, select_source_stockyard, selCandidates, sortOrders, pySort,
      pySortInsert, initInventory, invGet, invGetD, invSet, bucketSet, destAdd,
      truthyS, truthyQ, List.lookup, List.foldl, List.filter]
  · norm_num [initInventory, invGet, invGetD, List.lookup]

/-- Witness for C9: the run-level monotonicity evaluated on the concrete
discarded-pack run at the touched ledger entry. -/
theorem inventory_monotone_witness :
    invGetD (GreedyPlanner.planState {} (fun _ _ => 0)
        [{ id := "o1", order_number := "N1", product_code := "COAL",
           quantity_tonnes := 500, destination := "D" }]
        [⟨"id1", "SY1", "S one", none, none, [("COAL", 5000)]⟩]
        [⟨"r1", "RK1", "BOXN", 58, 3480, "available"⟩]).inventory "SY1" "COAL" ≤
    invGetD (initInventory [⟨"id1", "SY1", "S one", none, none, [("COAL", 5000)]⟩])
      "SY1" "COAL" :=
  ((inventory_monotone {} (fun _ _ => 0)
      [{ id := "o1", order_number := "N1", product_code := "COAL",
         quantity_tonnes := 500, destination := "D" }]
      [⟨"id1", "SY1", "S one", none, none, [("COAL", 5000)]⟩]
      [⟨"r1", "RK1", "BOXN", 58, 3480, "available"⟩]
      ⟨[], ∅, 0, 0, 0, []⟩ ⟨"r1", "RK1", "BOXN", 58, 3480, "available"⟩
      (by decide)).2.1 "SY1" "COAL").2

section ExtractHelpers

lemma extract_rake_step_assigned (cfg : Config) (x : ℕ → ℕ → Bool)
    (orders : List Order) (st : ExtractState) (jr : ℕ × Rake) :
    (extract_rake_step cfg x orders st jr).assigned =
      st.assigned ∪
        ((((orders.enum.filter (fun q => x q.1 jr.1)).map (·.2)).map (·.id)).toFinset) := by
  dsimp only [extract_rake_step]
  split
  · exact foldl_insert_map_union (fun o : Order => o.id) _ st.assigned
  · exact foldl_insert_map_union (fun o : Order => o.id) _ st.assigned

lemma extract_foldl_assigned (cfg : Config) (x : ℕ → ℕ → Bool) (orders : List Order)
    (js : List (ℕ × Rake)) : ∀ st : ExtractState,
    (js.foldl (extract_rake_step cfg x orders) st).assigned =
      js.foldl (fun s p => s ∪
        ((((orders.enum.filter (fun q => x q.1 p.1)).map (·.2)).map (·.id)).toFinset))
        st.assigned := by
  induction js with
  | nil => intro st; rfl
  | cons jr rest ih =>
    intro st
    rw [List.foldl_cons, List.foldl_cons, ih (extract_rake_step cfg x orders st jr),
      extract_rake_step_assigned cfg x orders st jr]

lemma sum_map_filter_ite {A : Type} (l : List A) (p : A → Bool) (f : A → ℤ) :
    ((l.filter p).map f).sum = (l.map (fun a => if p a then f a else 0)).sum := by
  induction l with
  | nil => rfl
  | cons a t ih =>
    by_cases hp : p a = true
    · rw [List.filter_cons_of_pos hp, List.map_cons, List.sum_cons,
        List.map_cons, List.sum_cons, if_pos hp, ih]
    · rw [List.filter_cons_of_neg hp, List.map_cons, List.sum_cons, if_neg hp,
        ih, zero_add]

lemma sum_cast_of_int (l : List Order)
    (h : ∀ o ∈ l, o.quantity_tonnes = (pyInt o.quantity_tonnes : ℚ)) :
    (l.map (·.quantity_tonnes)).sum =
      (((l.map (fun o => pyInt o.quantity_tonnes)).sum : ℤ) : ℚ) := by
  induction l with
  | nil => simp
  | cons a t ih =>
    rw [List.map_cons, List.sum_cons, List.map_cons, List.sum_cons, Int.cast_add]
    congr 1
    · exact h a (List.mem_cons_self a t)
    · exact ih (fun o ho => h o (List.mem_cons.mpr (Or.inr ho)))

lemma pyInt_le_self (q : ℚ) (h : 0 ≤ q) : (pyInt q : ℚ) ≤ q := by
  rw [pyInt, if_neg (not_lt.mpr h)]
  exact Int.floor_le q

lemma mem_orders_of_mem_ro (orders : List Order) (p : ℕ × Order → Bool) (o : Order)
    (h : o ∈ (orders.enum.filter p).map (·.2)) : o ∈ orders := by
  rcases List.mem_map.mp h with ⟨q, hq, heq⟩
  rw [← heq]
  exact List.snd_mem_of_mem_enum (List.mem_filter.mp hq).1

lemma extract_rake_step_ok (cfg : Config) (x : ℕ → ℕ → Bool) (orders : List Order)
    (st : ExtractState) (jr : ℕ × Rake)
    (hint : ∀ o ∈ orders, o.quantity_tonnes = (pyInt o.quantity_tonnes : ℚ))
    (hcapj : (orders.enum.map
        (fun q => if x q.1 jr.1 then pyInt q.2.quantity_tonnes else 0)).sum ≤
      pyInt jr.2.total_capacity_tonnes)
    (hcap0 : 0 ≤ jr.2.total_capacity_tonnes)
    (h : ∀ rp ∈ st.plan_rakes, rakeOk cfg.min_rake_size rp) :
    ∀ rp ∈ (extract_rake_step cfg x orders st jr).plan_rakes,
      rakeOk cfg.min_rake_size rp := by
  dsimp only [extract_rake_step]
  split
  · rename_i hcond
    intro rp hrp
    rcases List.mem_append.mp hrp with hmem | hmem
    · exact h rp hmem
    · have hrpeq := List.mem_singleton.mp hmem
      rw [hrpeq]
      refine ⟨?_, ?_, hcond.2⟩
      · rw [List.map_map]
        simp [Function.comp_def]
      · have hint' : ∀ o ∈ (orders.enum.filter (fun q => x q.1 jr.1)).map (·.2),
            o.quantity_tonnes = (pyInt o.quantity_tonnes : ℚ) :=
          fun o ho => hint o (mem_orders_of_mem_ro orders _ o ho)
        have h1 := sum_cast_of_int _ hint'
        have h2 : (((orders.enum.filter (fun q => x q.1 jr.1)).map (·.2)).map
            (fun o => pyInt o.quantity_tonnes)).sum =
            (orders.enum.map
              (fun q => if x q.1 jr.1 then pyInt q.2.quantity_tonnes else 0)).sum := by
          rw [List.map_map]
          exact sum_map_filter_ite orders.enum (fun q => x q.1 jr.1)
            (fun q => pyInt q.2.quantity_tonnes)
        show (((orders.enum.filter (fun q => x q.1 jr.1)).map (·.2)).map
            (·.quantity_tonnes)).sum ≤ jr.2.total_capacity_tonnes
        rw [h1, h2]
        calc ((((orders.enum.map
              (fun q => if x q.1 jr.1 then pyInt q.2.quantity_tonnes else 0)).sum : ℤ)) : ℚ)
            ≤ ((pyInt jr.2.total_capacity_tonnes : ℤ) : ℚ) := by exact_mod_cast hcapj
          _ ≤ jr.2.total_capacity_tonnes := pyInt_le_self _ hcap0
  · exact h

lemma extract_foldl_ok (cfg : Config) (x : ℕ → ℕ → Bool) (orders : List Order)
    (js : List (ℕ × Rake))
    (hint : ∀ o ∈ orders, o.quantity_tonnes = (pyInt o.quantity_tonnes : ℚ))
    (hcaps : ∀ p ∈ js, (orders.enum.map
        (fun q => if x q.1 p.1 then pyInt q.2.quantity_tonnes else 0)).sum ≤
      pyInt p.2.total_capacity_tonnes)
    (hcap0 : ∀ p ∈ js, 0 ≤ p.2.total_capacity_tonnes) :
    ∀ st, (∀ rp ∈ st.plan_rakes, rakeOk cfg.min_rake_size rp) →
      ∀ rp ∈ (js.foldl (extract_rake_step cfg x orders) st).plan_rakes,
        rakeOk cfg.min_rake_size rp := by
  induction js with
  | nil => intro st h; exact h
  | cons jr rest ih =>
    intro st h
    exact ih (fun p hp => hcaps p (List.mem_cons.mpr (Or.inr hp)))
      (fun p hp => hcap0 p (List.mem_cons.mpr (Or.inr hp))) _
      (extract_rake_step_ok cfg x orders st jr hint
        (hcaps jr (List.mem_cons_self jr rest))
        (hcap0 jr (List.mem_cons_self jr rest)) h)

end ExtractHelpers

/-- C2 counterexample: the assignment putting the single 500 t order on the
single rake satisfies the CP-SAT model constraints, yet the extraction counts
that order in `orders_fulfilled` (= 1) while the rake is discarded for being
under the default `min_rake_size` of 1000, so the union of assigned orders
over the rakes actually in the plan is empty (cardinality 0 ≠ 1). -/
theorem orders_fulfilled_cex :
    cpFeasible (fun i j => i == 0 && j == 0)
      [⟨"o1", "N1", "COAL", 500, none, "D", none, none, 3, 0⟩]
      [⟨"r1", "RK1", "BOXN", 58, 1000, "available"⟩] ∧
    (extract_solution {} (fun i j => i == 0 && j == 0)
      [⟨"o1", "N1", "COAL", 500, none, "D", none, none, 3, 0⟩]
      [⟨"r1", "RK1", "BOXN", 58, 1000, "available"⟩]).orders_fulfilled = 1 ∧
    (planAssignedUnion (extract_solution {} (fun i j => i == 0 && j == 0)
      [⟨"o1", "N1", "COAL", 500, none, "D", none, none, 3, 0⟩]
      [⟨"r1", "RK1", "BOXN", 58, 1000, "available"⟩])).card = 0 := by
  refine ⟨by with_unfolding_all decide, by with_unfolding_all decide,
    by with_unfolding_all decide⟩

/-- C2 (amended): for the greedy planner, `orders_fulfilled` equals the number
of distinct order ids in the assigned-order lists of the emitted PlanRakes;
for the CP-SAT extraction, `orders_fulfilled` equals the number of distinct
orders the solver assigned to any rake — including orders on rakes discarded
for being under `min_rake_size` — which can exceed the union over the rakes
actually in the plan. -/
theorem orders_fulfilled_union (cfg : Config) (dist : Dist) (orders : List Order)
    (stockyards : List Stockyard) (rakes : List Rake) (x : ℕ → ℕ → Bool) :
    (GreedyPlanner.plan cfg dist orders stockyards rakes).orders_fulfilled =
      (planAssignedUnion (GreedyPlanner.plan cfg dist orders stockyards rakes)).card ∧
    (extract_solution cfg x orders rakes).orders_fulfilled =
      (solverAssignedSet x orders rakes).card := by
  constructor
  · exact congrArg Finset.card (foldl_greedy_union cfg dist (sortOrders orders)
      stockyards (rakes.filter (fun r => r.status == "available"))
      ⟨[], ∅, 0, 0, 0, initInventory stockyards⟩ rfl)
  · exact congrArg Finset.card
      (extract_foldl_assigned cfg x orders rakes.enum ⟨[], ∅⟩)

/-- C1 counterexample: with the fractional quantity 2000.5 t on a 2000 t rake,
the assignment satisfies the CP-SAT model constraints (which only bound the
`int()`-truncated tonnage: 2000 ≤ 2000), yet the extracted PlanRake is emitted
with `total_weight` 2000.5 strictly above its capacity. -/
theorem plan_rake_capacity_cex :
    cpFeasible (fun i j => i == 0 && j == 0)
      [⟨"o1", "N1", "COAL", 4001/2, none, "D", none, none, 3, 0⟩]
      [⟨"r1", "RK1", "BOXN", 58, 2000, "available"⟩] ∧
    (∃ rp ∈ (extract_solution {} (fun i j => i == 0 && j == 0)
      [⟨"o1", "N1", "COAL", 4001/2, none, "D", none, none, 3, 0⟩]
      [⟨"r1", "RK1", "BOXN", 58, 2000, "available"⟩]).rakes,
      rp.capacity < rp.total_weight) := by
  refine ⟨by with_unfolding_all decide, by with_unfolding_all decide⟩

/-- C1 (amended): every PlanRake emitted by the greedy planner satisfies the
three weight invariants — `total_weight` is the sum of its assigned
quantities, is at most the rake capacity, and is at least the configured
`min_rake_size` (default 1000).  For the CP-SAT extraction the same three
invariants hold for every solution satisfying the posted model constraints
provided each order quantity is integral (equal to its `int()` truncation) and
capacities are nonnegative; with fractional quantities the capacity bound can
fail, because the model only constrains truncated tonnages. -/
theorem plan_rake_invariants (cfg : Config) (dist : Dist) (orders : List Order)
    (stockyards : List Stockyard) (rakes : List Rake) (x : ℕ → ℕ → Bool) :
    ({} : Config).min_rake_size = 1000 ∧
    (∀ rp ∈ (GreedyPlanner.plan cfg dist orders stockyards rakes).rakes,
      rakeOk cfg.min_rake_size rp) ∧
    (cpFeasible x orders rakes →
      (∀ o ∈ orders, o.quantity_tonnes = (pyInt o.quantity_tonnes : ℚ)) →
      (∀ r ∈ rakes, 0 ≤ r.total_capacity_tonnes) →
      ∀ rp ∈ (extract_solution cfg x orders rakes).rakes,
        rakeOk cfg.min_rake_size rp) := by
  refine ⟨rfl, ?_, ?_⟩
  · intro rp hrp
    exact foldl_greedy_plansOk cfg dist (sortOrders orders) stockyards
      (rakes.filter (fun r => r.status == "available"))
      ⟨[], ∅, 0, 0, 0, initInventory stockyards⟩
      (fun rp h => absurd h (List.not_mem_nil rp)) rp hrp
  · intro hfeas hint hcap rp hrp
    exact extract_foldl_ok cfg x orders rakes.enum hint hfeas.2
      (fun p hp => hcap p.2 (List.snd_mem_of_mem_enum hp)) ⟨[], ∅⟩
      (fun rp h => absurd h (List.not_mem_nil rp)) rp hrp

/-- Witness for C1 (amended): on an integral one-order instance the emitted
CP-SAT PlanRake satisfies all three weight invariants. -/
theorem plan_rake_invariants_witness :
    rakeOk ({} : Config).min_rake_size
      ⟨"RK1", none, none, ["D"], [⟨"o1", "N1", "COAL", 2000, "D", 0⟩], ["o1"],
        2000, 2000, 100, 2500000, 0, 0, "BOXN", 58⟩ :=
  (plan_rake_invariants {} (fun _ _ => 0)
      [⟨"o1", "N1", "COAL", 2000, none, "D", none, none, 3, 0⟩] []
      [⟨"r1", "RK1", "BOXN", 58, 2000, "available"⟩]
      (fun i j => i == 0 && j == 0)).2.2
    (by with_unfolding_all decide) (by with_unfolding_all decide)
    (by with_unfolding_all decide)
    ⟨"RK1", none, none, ["D"], [⟨"o1", "N1", "COAL", 2000, "D", 0⟩], ["o1"],
      2000, 2000, 100, 2500000, 0, 0, "BOXN", 58⟩
    (by norm_num [extract_solution, extract_rake_step, List.enum, List.enumFrom,
      List.filter, List.foldl, List.dedup, pyInt])

end RailAI
